import Mathlib

/-!
Verification of the configuration-resolution and live-diagnostics engine of
`vscode-cpptools` (`CppProperties`, file `src/unnamed/part_000`).

The TypeScript code is shallowly embedded: strings are Lean `String`s
(manipulated through their `List Char` data to mirror JavaScript index
arithmetic), JavaScript `undefined`/`null` fields become `Option`, and the
ambient collaborators (VS Code settings, compiler defaults, the filesystem,
the `util` module that is not part of this repository's sources) become
explicit parameters or spec-modelled definitions.

JavaScript string indices are modelled as `Int` where the code can produce
`-1` sentinels, and as `Nat` where it cannot.
-/

set_option maxRecDepth 10000

/-! ## Generic string helpers (JavaScript semantics) -/

/-- JavaScript `String.prototype.replace` with a *string* pattern replaces only
the first occurrence.  For the empty pattern it inserts the replacement at the
front, which is also what this function does. -/
def replaceFirstList (pat repl : List Char) : List Char → List Char
  | [] => if pat = [] then repl else []
  | c :: cs =>
    if pat.isPrefixOf (c :: cs) then repl ++ (c :: cs).drop pat.length
    else c :: replaceFirstList pat repl cs

/-- JavaScript `String.prototype.replace` with a global regex of a literal
pattern: replace every (non-overlapping, leftmost) occurrence.  Every step
consumes at least one character, so `fuel = length` bounds the recursion. -/
def replaceAllAux (pat repl : List Char) : Nat → List Char → List Char
  | 0, s => s
  | _, [] => []
  | fuel + 1, c :: cs =>
    if pat ≠ [] ∧ pat.isPrefixOf (c :: cs) then
      repl ++ replaceAllAux pat repl fuel ((c :: cs).drop pat.length)
    else
      c :: replaceAllAux pat repl fuel cs

/-- Replace every occurrence of a non-empty literal pattern. -/
def replaceAllList (pat repl : List Char) (s : List Char) : List Char :=
  replaceAllAux pat repl s.length s

/-- Substring test over character lists (used for JavaScript `includes`). -/
def containsSubList (pat : List Char) : List Char → Bool
  | [] => pat.isPrefixOf []
  | c :: cs => pat.isPrefixOf (c :: cs) || containsSubList pat cs

/-- JavaScript `String.prototype.includes` for strings. -/
def jsIncludes (s pat : String) : Bool := containsSubList pat.data s.data

/-- `String.prototype.replace(pat, repl)` (first occurrence only), on `String`. -/
def jsReplaceFirst (s pat repl : String) : String :=
  String.mk (replaceFirstList pat.data repl.data s.data)

/-- Split a character list at every `;` (JavaScript `split(";")`). -/
def splitOnSemicolonList (cs : List Char) : List (List Char) :=
  match cs with
  | [] => [[]]
  | c :: rest =>
    let tail := splitOnSemicolonList rest
    if c = ';' then [] :: tail
    else
      match tail with
      | [] => [[c]]
      | t :: ts => (c :: t) :: ts

/-- JavaScript `String.prototype.split(";")`. -/
def jsSplitSemicolon (s : String) : List String :=
  (splitOnSemicolonList s.data).map String.mk

/-- The characters treated as whitespace by JavaScript's `trim` and `\s`. -/
def jsIsWs (c : Char) : Bool :=
  c = ' ' ∨ c = '\t' ∨ c = '\n' ∨ c = '\r' ∨ c = '\x0b' ∨ c = '\x0c' ∨ c = ' '

/-- JavaScript `String.prototype.trim`. -/
def jsTrim (s : String) : String :=
  String.mk (((s.data.dropWhile (fun c => jsIsWs c)).reverse.dropWhile
    (fun c => jsIsWs c)).reverse)

/-- JavaScript `String.prototype.indexOf(needle_char, from)` over a character
list: first index `≥ max from 0` holding the character, `-1` when absent. -/
def jsIndexOfCharFrom (cs : List Char) (ch : Char) (from_ : Int) : Int :=
  let rec go (l : List Char) (i : Nat) : Int :=
    match l with
    | [] => -1
    | c :: rest => if c = ch ∧ from_ ≤ (i : Int) then (i : Int) else go rest (i + 1)
  go cs 0

/-! ## VariableResolver -/

/-- The document's `env` block: an ordered map from names to strings.
(The source also allows string-list values; no claim exercises them, so the
embedding restricts values to strings.) -/
abbrev Environment : Type := List (String × String)

/-- Modelled from the spec: `util.resolveVariables` (module `common`, not in
`src/`) "substitutes `${name}` placeholders using an environment map plus
built-in names"; the built-in `workspaceFolderBasename` is already injected
into the map by `ExtendedEnvironment`.  Each binding replaces every occurrence
of its `${name}` token. -/
def resolveVariablesList (env : Environment) (s : List Char) : List Char :=
  env.foldl
    (fun acc kv => replaceAllList ("$\x7b".data ++ kv.1.data ++ "\x7d".data) kv.2.data acc) s

/-- Modelled from the spec: `util.resolveVariables` on `String` (argument order
as at the call sites `util.resolveVariables(path, env)`). -/
def resolveVariables (input : String) (env : Environment) : String :=
  String.mk (resolveVariablesList env input.data)

/-- `CppProperties.resolveDefaults` (lines 475-489): each `${default}` entry
expands in place to the full default list; a `null` default contributes
nothing. -/
def resolveDefaults (entries : List String) (defaultValue : Option (List String)) :
    List String :=
  entries.foldl
    (fun result entry =>
      if entry = "${default}" then
        match defaultValue with
        | some d => result ++ d
        | none => result
      else result ++ [entry])
    []

/-- `CppProperties.resolveAndSplit` (lines 491-501): expand defaults, then
substitute variables in each entry, split on `;` and drop empty fragments. -/
def resolveAndSplit (paths : Option (List String)) (defaultValue : Option (List String))
    (env : Environment) : List String :=
  match paths with
  | none => []
  | some ps =>
    (resolveDefaults ps defaultValue).foldl
      (fun result entry =>
        result ++ ((jsSplitSemicolon (resolveVariables entry env)).filter
          (fun e => e ≠ "")))
      []

/-- The spec's own description of `resolveList(values, default, env)`, written
from its words for comparison with `resolveAndSplit`: in-place `${default}`
expansion (dropped when the default is absent), placeholder substitution on
the resulting elements, split on `;`, discard empty fragments, concatenate in
order. -/
def resolveListSpec (values : List String) (defaultValue : Option (List String))
    (env : Environment) : List String :=
  (values.flatMap (fun e => if e = "${default}" then defaultValue.getD [] else [e])).flatMap
    (fun e => (jsSplitSemicolon (resolveVariables e env)).filter (fun x => x ≠ ""))

/-! ## Data model -/

structure Browse where
  path : Option (List String) := none
  limitSymbolsToIncludedHeaders : Option Bool := none
  databaseFilename : Option String := none
  deriving DecidableEq, Repr

structure Configuration where
  name : String
  compilerPath : Option String := none
  cStandard : Option String := none
  cppStandard : Option String := none
  includePath : Option (List String) := none
  macFrameworkPath : Option (List String) := none
  windowsSdkVersion : Option String := none
  defines : Option (List String) := none
  intelliSenseMode : Option String := none
  compileCommands : Option String := none
  forcedInclude : Option (List String) := none
  configurationProvider : Option String := none
  browse : Option Browse := none
  deriving DecidableEq, Repr

structure ConfigurationJson where
  configurations : List Configuration
  env : Option Environment := none
  version : Option Int := none
  enableConfigurationSquiggles : Option Bool := none
  deriving DecidableEq, Repr

/-- `process.platform`, restricted to the three cases the code distinguishes. -/
inductive Platform
  | win32
  | darwin
  | linuxOther
  deriving DecidableEq, Repr

/-- Truthiness of an optional string (JavaScript: `undefined`, `null` and `""`
are falsy). -/
def strTruthy : Option String → Bool
  | none => false
  | some s => s ≠ ""

/-! ## PlatformDefaultsProvider -/

/-- `getConfigIndexForPlatform` (lines 358-373): first configuration named
after the host platform, else the last element. -/
def getConfigIndexForPlatform (platform : Platform) (doc : ConfigurationJson) : Int :=
  let plat : String :=
    match platform with
    | .darwin => "Mac"
    | .win32 => "Win32"
    | .linuxOther => "Linux"
  match doc.configurations.findIdx? (fun c => c.name = plat) with
  | some i => (i : Int)
  | none => (doc.configurations.length : Int) - 1

/-- `getIntelliSenseModeForPlatform` (lines 375-391). -/
def getIntelliSenseModeForPlatform (platform : Platform) (name : String) : String :=
  if name = "Linux" then "gcc-x64"
  else if name = "Mac" then "clang-x64"
  else if name = "Win32" then "msvc-x64"
  else match platform with
    | .win32 => "msvc-x64"
    | .darwin => "clang-x64"
    | .linuxOther => "gcc-x64"

/-! ## PathValidator -/

/-- Modelled from the spec: the result of `util.extractCompilerPathAndArgs`
(module `common`, not in `src/`): the compiler string is split into the path
portion and trailing arguments ("the path contains spaces, trailing arguments
are present, and the raw value is not already quoted"); `compilerName` is the
detected executable name, the basename of the path portion. -/
structure CompilerPathAndArgs where
  compilerPath : String
  compilerName : String
  additionalArgs : Option (List String)
  deriving DecidableEq, Repr

/-- Basename of a path: the text after the last `/` or `\`. -/
def pathBasename (s : String) : String :=
  String.mk ((s.data.reverse.takeWhile (fun c => c ≠ '/' ∧ c ≠ '\\')).reverse)

/-- Split a character list at the first space. -/
def splitAtFirstSpace (cs : List Char) : List Char × List Char :=
  match cs with
  | [] => ([], [])
  | c :: rest =>
    if c = ' ' then ([], rest)
    else
      let (a, b) := splitAtFirstSpace rest
      (c :: a, b)

/-- Modelled from the spec: `util.extractCompilerPathAndArgs`.  A leading
double quote delimits the path portion; otherwise the path portion ends at the
first space; the remainder, when present, forms the argument list. -/
def extractCompilerPathAndArgs (input : String) : CompilerPathAndArgs :=
  match input.data with
  | '"' :: rest =>
    let p := rest.takeWhile (fun c => c ≠ '"')
    let after := (rest.dropWhile (fun c => c ≠ '"')).drop 1
    let args := (String.mk after).trim
    { compilerPath := String.mk p
      compilerName := pathBasename (String.mk p)
      additionalArgs := if args = "" then none else some (args.splitOn " ") }
  | cs =>
    let (p, after) := splitAtFirstSpace cs
    let args := (String.mk after).trim
    if after = [] then
      { compilerPath := String.mk cs
        compilerName := pathBasename (String.mk cs)
        additionalArgs := none }
    else
      { compilerPath := String.mk p
        compilerName := pathBasename (String.mk p)
        additionalArgs := if args = "" then none else some (args.splitOn " ") }

/-- `isCompilerIntelliSenseModeCompatible` (lines 393-407). -/
def isCompilerIntelliSenseModeCompatible (c : Configuration) : Bool :=
  if c.compilerPath = none ∨ c.compilerPath = some "" ∨ c.compilerPath = some "${default}"
    ∨ c.intelliSenseMode = none ∨ c.intelliSenseMode = some ""
    ∨ c.intelliSenseMode = some "${default}" then
    true
  else
    decide ((extractCompilerPathAndArgs (c.compilerPath.getD "")).compilerName = "cl.exe")
      == decide (c.intelliSenseMode = some "msvc-x64")

/-- The ambient state `resolvePath` reads: the document environment (after
load-time stripping), the workspace root (`this.rootUri.fsPath`) and its
basename (computed by the external `path.basename`), `util.getVcpkgRoot()` and
`this.rootfs` (`""` models `null`/unset, matching the code's truthiness
checks). -/
structure ResolveParams where
  docEnv : Environment := []
  rootPath : String := ""
  rootBasename : String := ""
  vcpkgRoot : String := ""
  rootfs : String := ""

/-- `CppProperties.ExtendedEnvironment` (lines 319-327): the document `env`
plus the injected `workspaceFolderBasename` (a later assignment overrides any
earlier binding of that key). -/
def extendedEnvironment (P : ResolveParams) : Environment :=
  (P.docEnv.filter (fun kv => kv.1 ≠ "workspaceFolderBasename"))
    ++ [("workspaceFolderBasename", P.rootBasename)]

/-- `CppProperties.resolvePath` (lines 875-910). -/
def resolvePath (P : ResolveParams) (path : String) (isWindows : Bool) : String :=
  if path = "" ∨ path = "${default}" then ""
  else
    let r0 := resolveVariables path (extendedEnvironment P)
    let r1 := if jsIncludes r0 "${workspaceFolder}" then
        jsReplaceFirst r0 "${workspaceFolder}" P.rootPath else r0
    let r2 := if jsIncludes r1 "${workspaceRoot}" then
        jsReplaceFirst r1 "${workspaceRoot}" P.rootPath else r1
    let r3 := if jsIncludes r2 "${vcpkgRoot}" ∧ P.vcpkgRoot ≠ "" then
        jsReplaceFirst r2 "${vcpkgRoot}" P.vcpkgRoot else r2
    let r4 := if r3.data.contains '*' then String.mk (r3.data.filter (fun c => c ≠ '*'))
        else r3
    if isWindows ∧ r4.data.head? = some '/' then
      if 7 < r4.data.length ∧ r4.data.take 5 = "/mnt/".data then
        let d := r4.data.drop 5
        String.mk (d.take 1 ++ ':' :: d.drop 1)
      else if P.rootfs ≠ "" then String.mk (P.rootfs.data ++ r4.data.drop 1)
      else r4
    else r4

/-! ## SchemaMigrator and ConfigurationStore load -/

/-- `const configVersion: number = 4` (line 19). -/
def configVersion : Int := 4

/-- The ambient collaborators `parsePropertiesFile` and the migration steps
consult: the host platform, the `CppSettings` per-field defaults (`none`
models a `null` setting), the `CompilerDefaults` fields received from the
external probing collaborator (`none` models their `null` initialisation),
the provider-id normaliser `getCustomConfigProviders().checkId`, and whether
`writeToJson` succeeds (a failed write is caught and only flips the returned
success flag). -/
structure LoadParams where
  platform : Platform
  settingsDefaultIntelliSenseMode : Option String := none
  settingsDefaultCompilerPath : Option String := none
  settingsDefaultCStandard : Option String := none
  settingsDefaultCppStandard : Option String := none
  defaultCompilerPath : Option String := none
  defaultCStandard : Option String := none
  defaultCppStandard : Option String := none
  checkId : Option String → Option String := id
  writeSucceeds : Bool := true

/-- `updateToVersion2` (lines 1299-1303): stamp version 2; the historical
browse-path population is intentionally a no-op. -/
def updateToVersion2 (doc : ConfigurationJson) : ConfigurationJson :=
  { doc with version := some 2 }

/-- The loop body of `updateToVersion3` for one configuration. -/
def updateToVersion3Config (P : LoadParams) (config : Configuration) : Configuration :=
  if config.name = "Mac"
      ∨ (P.platform = .darwin ∧ config.name ≠ "Win32" ∧ config.name ≠ "Linux") then
    if config.macFrameworkPath = none then
      { config with macFrameworkPath :=
          (some ["/System/Library/Frameworks", "/Library/Frameworks"]) }
    else config
  else config

/-- `updateToVersion3` (lines 1305-1319): stamp version 3 and inject the Mac
framework search paths into Mac-ish configurations that lack them. -/
def updateToVersion3 (P : LoadParams) (doc : ConfigurationJson) : ConfigurationJson :=
  { doc with
    version := some 3
    configurations := doc.configurations.map (updateToVersion3Config P) }

/-- First conditional of the `updateToVersion4` loop body (line 1329). -/
def u4StageIntelliSenseMode (P : LoadParams) (c : Configuration) : Configuration :=
  if c.intelliSenseMode = none ∧ ¬strTruthy P.settingsDefaultIntelliSenseMode then
    { c with intelliSenseMode :=
        (some (getIntelliSenseModeForPlatform P.platform c.name)) }
  else c

/-- Second conditional of the `updateToVersion4` loop body (line 1333). -/
def u4StageCompilerPath (P : LoadParams) (c : Configuration) : Configuration :=
  if c.compilerPath = none ∧ strTruthy P.defaultCompilerPath
      ∧ ¬strTruthy c.compileCommands ∧ ¬strTruthy P.settingsDefaultCompilerPath then
    { c with compilerPath := P.defaultCompilerPath }
  else c

/-- Third conditional of the `updateToVersion4` loop body (line 1336). -/
def u4StageCStandard (P : LoadParams) (c : Configuration) : Configuration :=
  if ¬strTruthy c.cStandard ∧ strTruthy P.defaultCStandard
      ∧ ¬strTruthy P.settingsDefaultCStandard then
    { c with cStandard := P.defaultCStandard }
  else c

/-- Fourth conditional of the `updateToVersion4` loop body (line 1339). -/
def u4StageCppStandard (P : LoadParams) (c : Configuration) : Configuration :=
  if ¬strTruthy c.cppStandard ∧ strTruthy P.defaultCppStandard
      ∧ ¬strTruthy P.settingsDefaultCppStandard then
    { c with cppStandard := P.defaultCppStandard }
  else c

/-- The loop body of `updateToVersion4` for one configuration: the four
conditionals in source order. -/
def updateToVersion4Config (P : LoadParams) (config : Configuration) : Configuration :=
  u4StageCppStandard P (u4StageCStandard P (u4StageCompilerPath P
    (u4StageIntelliSenseMode P config)))

/-- `updateToVersion4` (lines 1321-1343): stamp version 4 and fill
`intelliSenseMode`, `compilerPath`, `cStandard` and `cppStandard` from the
detected compiler defaults, but only where no corresponding VS Code setting
exists (and, for `compilerPath`, no `compileCommands` is set). -/
def updateToVersion4 (P : LoadParams) (doc : ConfigurationJson) : ConfigurationJson :=
  { doc with
    version := some 4
    configurations := doc.configurations.map (updateToVersion4Config P) }

/-- The version-migration block of `parsePropertiesFile` (lines 835-851):
nothing when already at the current version, otherwise the sequential
`undefined → 2 → 3 → 4` chain, with any other version force-stamped to the
current version (after a user-visible warning).  The second component is the
`dirty` contribution. -/
def migrateConfigurationJson (P : LoadParams) (doc : ConfigurationJson) :
    ConfigurationJson × Bool :=
  if doc.version = some configVersion then (doc, false)
  else
    let d1 := if doc.version = none then updateToVersion2 doc else doc
    let d2 := if d1.version = some 2 then updateToVersion3 P d1 else d1
    if d2.version = some 3 then (updateToVersion4 P d2, true)
    else ({ d2 with version := some configVersion }, true)

/-- The mutable fields of `CppProperties` that `parsePropertiesFile` touches:
the owned document, the persisted selection index (initialised to `-1`), and
the pending-defaults flag. -/
structure PropertiesState where
  configurationJson : Option ConfigurationJson := none
  currentConfigurationIndex : Int := -1
  configurationIncomplete : Bool := true
  deriving DecidableEq, Repr

/-- The three outcomes of reading and `JSON.parse`-ing the backing file. -/
inductive ParseInput
  | empty
  | malformed
  | parsed (doc : ConfigurationJson)

/-- Load-time removal of the reserved variable overrides (lines 823-829). -/
def stripReservedEnv (env : Environment) : Environment :=
  env.filter (fun kv =>
    kv.1 ≠ "workspaceRoot" ∧ kv.1 ≠ "workspaceFolder"
      ∧ kv.1 ≠ "workspaceFolderBasename" ∧ kv.1 ≠ "default")

/-- `parsePropertiesFile` (lines 787-873).  Empty text returns early
(`undefined`, falsy); malformed JSON and a missing/empty `configurations`
array are caught and report failure, leaving the state untouched.  On the
success path: selection preservation by name (first match wins), document
swap, out-of-range index fallback to the platform index, provider-id
normalisation, reserved-env stripping, migration, and the dirty write-back
whose failure is non-fatal for the in-memory state. -/
def parsePropertiesFile (P : LoadParams) (st : PropertiesState) (input : ParseInput) :
    PropertiesState × Bool :=
  match input with
  | .empty => (st, false)
  | .malformed => (st, false)
  | .parsed newJson =>
    if newJson.configurations = [] then (st, false)
    else
      let idx0 := st.currentConfigurationIndex
      let idx1 : Int :=
        match st.configurationJson with
        | some old =>
          if ¬st.configurationIncomplete ∧ 0 ≤ idx0
              ∧ idx0 < (old.configurations.length : Int) then
            match old.configurations.get? idx0.toNat with
            | some sel =>
              match newJson.configurations.findIdx? (fun c => c.name = sel.name) with
              | some i => (i : Int)
              | none => idx0
            | none => idx0
          else idx0
        | none => idx0
      let idx2 : Int :=
        if idx1 < 0 ∨ (newJson.configurations.length : Int) ≤ idx1 then
          getConfigIndexForPlatform P.platform newJson
        else idx1
      let configs1 := newJson.configurations.map
        (fun c => { c with configurationProvider := P.checkId c.configurationProvider })
      let dirty0 := newJson.configurations.any
        (fun c => decide (P.checkId c.configurationProvider ≠ c.configurationProvider))
      let doc1 : ConfigurationJson :=
        { newJson with
          configurations := configs1
          env := newJson.env.map stripReservedEnv }
      let docDirty := migrateConfigurationJson P doc1
      let dirty : Bool := dirty0 || docDirty.2
      let success : Bool := !dirty || P.writeSucceeds
      ({ configurationJson := some docDirty.1
         currentConfigurationIndex := idx2
         configurationIncomplete := false }, success)

/-! ## DiagnosticsEngine (squiggle mapper)

The pass searches the narrowed window of raw document text for each path of
interest with the pattern (line 1226)

  `"[^"]*?(?<="|;)PATH(?="|;).*?"`  (global flag)

The functions below implement exactly this pattern's JavaScript semantics for
a literal `PATH`: a match starts at a quote; the lazy `[^"]*?` advances over
non-quote characters to the earliest position whose preceding character is a
quote or semicolon and where `PATH` follows with a quote or semicolon after
it; the lazy `.*?"` then extends to the first following quote (`.` does not
match line terminators); the global scan resumes after each match. -/

/-- Characters matched by `.` in a JavaScript regex without the `s` flag. -/
def isDotChar (c : Char) : Bool :=
  c ≠ '\n' ∧ c ≠ '\r' ∧ c ≠ ' ' ∧ c ≠ ' '

/-- The characters accepted by the lookbehind and lookahead `("|;)`. -/
def isBoundChar (c : Char) : Bool := c = '"' ∨ c = ';'

/-- Does the list start with a bound character? (the lookahead `(?="|;)`). -/
def boundHead : List Char → Bool
  | [] => false
  | c :: _ => isBoundChar c

/-- The lazy tail `.*?"`: distance to the first quote, provided every
character before it is matched by `.`. -/
def closeQuoteLen : List Char → Option Nat
  | [] => none
  | c :: cs =>
    if c = '"' then some 0
    else if isDotChar c then (closeQuoteLen cs).map (fun n => n + 1)
    else none

/-- One attempt of the pattern body after its opening quote: `prev` is the
character preceding the current position (initially the opening quote), `cs`
the rest of the text.  Returns how many characters of `cs` the rest of the
match consumes (through the closing quote).  The lazy `[^"]*?` tries the
shortest extension first and can never step over a quote. -/
def tryBody (p : List Char) (prev : Char) (cs : List Char) : Option Nat :=
  let occ : Option Nat :=
    if isBoundChar prev && p.isPrefixOf cs && boundHead (cs.drop p.length) then
      closeQuoteLen (cs.drop p.length)
    else none
  match occ with
  | some t => some (p.length + t + 1)
  | none =>
    match cs with
    | [] => none
    | c :: rest => if c = '"' then none else (tryBody p c rest).map (fun n => n + 1)

/-- A full match attempt at the head of the text: the pattern must open with a
quote; returns the total match length when it matches here. -/
def tryMatchLen (p : List Char) : List Char → Option Nat
  | [] => none
  | c :: rest => if c = '"' then (tryBody p '"' rest).map (fun n => n + 1) else none

/-- The global scan (`String.prototype.match` with the `g` flag): leftmost
matches, resuming after each match's end.  Every step consumes at least one
character, so `fuel = length` bounds the recursion. -/
def scanMatchesAux (p : List Char) : Nat → List Char → List (Nat × Nat)
  | 0, _ => []
  | _, [] => []
  | fuel + 1, text =>
    match tryMatchLen p text with
    | some len =>
      (0, len) :: (scanMatchesAux p fuel (text.drop len)).map
        (fun se => (se.1 + len, se.2 + len))
    | none =>
      match text with
      | [] => []
      | _ :: rest =>
        (scanMatchesAux p fuel rest).map (fun se => (se.1 + 1, se.2 + 1))

/-- All matches of the squiggle pattern for literal `p`, as
`(start, end)` half-open index pairs. -/
def scanMatches (p : List Char) (text : List Char) : List (Nat × Nat) :=
  scanMatchesAux p text.length text

/-- Line 1221: escape quotes in the raw path so the pattern matches the
JSON-escaped occurrence in the document text (`curPath.replace(/\"/g, '\\\"')`);
the subsequent regex-escape (line 1222) makes the result a literal. -/
def escapeQuotesList : List Char → List Char
  | [] => []
  | c :: cs =>
    if c = '"' then '\\' :: '"' :: escapeQuotesList cs else c :: escapeQuotesList cs

/-- Does the key pattern `\s*"KEY"\s*:\s*C` (with `C` the opening bracket or
quote of the value) match at the head of the text? -/
def keyPatternAt (key : List Char) (close : Char) (cs : List Char) : Bool :=
  match cs.dropWhile (fun c => jsIsWs c) with
  | '"' :: cs2 =>
    if key.isPrefixOf cs2 then
      match cs2.drop key.length with
      | '"' :: cs3 =>
        match cs3.dropWhile (fun c => jsIsWs c) with
        | ':' :: cs5 =>
          match cs5.dropWhile (fun c => jsIsWs c) with
          | c :: _ => c = close
          | [] => false
        | _ => false
      | _ => false
    else false
  | _ => false

/-- JavaScript `String.prototype.search` for the key patterns: index of the
leftmost position where the pattern matches, `-1` when none. -/
def jsSearchKeyAux (key : List Char) (close : Char) : List Char → Nat → Int
  | [], _ => -1
  | l@(_ :: rest), i =>
    if keyPatternAt key close l then (i : Int) else jsSearchKeyAux key close rest (i + 1)

/-- Search the whole text for a key pattern. -/
def jsSearchKey (key : String) (close : Char) (cs : List Char) : Int :=
  jsSearchKeyAux key.data close cs 0

/-- A positioned diagnostic: character offsets into the document plus the
message (the severity is always `Warning`). -/
structure Diag where
  startOffset : Int
  endOffset : Int
  message : String
  deriving DecidableEq, Repr

/-- Build a diagnostic from its two document offsets and message. -/
def mkDiag (s e : Int) (msg : String) : Diag :=
  { startOffset := s, endOffset := e, message := msg }

/-- The per-category squiggle counters (lines 1106-1108). -/
structure SquiggleMetrics where
  PathNonExistent : Nat := 0
  PathNotAFile : Nat := 0
  PathNotADirectory : Nat := 0
  CompilerPathMissingQuotes : Nat := 0
  CompilerModeMismatch : Nat := 0
  deriving DecidableEq, Repr

/-- Fieldwise sum of metric increments. -/
def addMetrics (a b : SquiggleMetrics) : SquiggleMetrics :=
  { PathNonExistent := a.PathNonExistent + b.PathNonExistent
    PathNotAFile := a.PathNotAFile + b.PathNotAFile
    PathNotADirectory := a.PathNotADirectory + b.PathNotADirectory
    CompilerPathMissingQuotes := a.CompilerPathMissingQuotes + b.CompilerPathMissingQuotes
    CompilerModeMismatch := a.CompilerModeMismatch + b.CompilerModeMismatch }

/-- The inputs of the squiggle pass once the text window for the current
configuration has been located (lines 1105 onward): the narrowed window
`curText`, its offset in the document, the host platform flavour, `path.sep`,
the path-resolution ambient state, and the filesystem predicates
(`fs.existsSync`, `util.checkFileExistsSync`, `util.checkDirectoryExistsSync`). -/
structure SquiggleContext where
  curText : String
  curTextStartOffset : Nat
  isWindows : Bool
  pathSep : Char
  resolveP : ResolveParams
  fsExists : String → Bool
  fileExists : String → Bool
  dirExists : String → Bool

/-- The textual spans of the file-only properties (lines 1152-1158). -/
structure KeyRanges where
  forcedIncludeStart : Int
  forcedeIncludeEnd : Int
  compileCommandsStart : Int
  compileCommandsEnd : Int
  compilerPathStart : Int
  compilerPathEnd : Int
  deriving Repr

/-- Compute the key ranges exactly as lines 1152-1158 do. -/
def computeKeyRanges (cs : List Char) : KeyRanges :=
  let fis := jsSearchKey "forcedInclude" '[' cs
  let fie := if fis = -1 then -1 else jsIndexOfCharFrom cs ']' fis
  let ccs := jsSearchKey "compileCommands" '"' cs
  let cce := if ccs = -1 then -1 else
    jsIndexOfCharFrom cs '"' ((jsIndexOfCharFrom cs '"' (jsIndexOfCharFrom cs ':' ccs)) + 1)
  let cps := jsSearchKey "compilerPath" '"' cs
  let cpe := if cps = -1 then -1 else
    (jsIndexOfCharFrom cs '"' ((jsIndexOfCharFrom cs '"' (jsIndexOfCharFrom cs ':' cps)) + 1)) + 1
  { forcedIncludeStart := fis
    forcedeIncludeEnd := fie
    compileCommandsStart := ccs
    compileCommandsEnd := cce
    compilerPathStart := cps
    compilerPathEnd := cpe }

/-- The deduplicated "paths of interest" in JavaScript `Set` insertion order
(lines 1134-1150): browse path, include path, Mac framework path, forced
include, then `compileCommands` and `compilerPath` when truthy. -/
def pathsOfInterest (cfg : Configuration) : List String :=
  let lists :=
    ((cfg.browse.bind (fun b => b.path)).getD [])
      ++ (cfg.includePath.getD [])
      ++ (cfg.macFrameworkPath.getD [])
      ++ (cfg.forcedInclude.getD [])
  let withCC := lists ++ (if strTruthy cfg.compileCommands then [cfg.compileCommands.getD ""] else [])
  let withCP := withCC ++ (if strTruthy cfg.compilerPath then [cfg.compilerPath.getD ""] else [])
  withCP.foldl (fun acc s => if decide (s ∈ acc) then acc else acc ++ [s]) []

/-- The body of the per-path loop (lines 1160-1268) for one `curPath`:
resolution, compiler-path special cases, existence with `.exe` and
workspace-relative retries, separator normalisation, the pattern scan and the
per-match classification.  Returns the diagnostics and metric increments this
path contributes. -/
def squigglesForPath (ctx : SquiggleContext) (cfg : Configuration) (ranges : KeyRanges)
    (curPath : String) : List Diag × SquiggleMetrics :=
  let zero : SquiggleMetrics := {}
  let isCompilerPath : Bool := cfg.compilerPath = some curPath
  if curPath = "${default}" then ([], zero)
  else
    let resolvedPath0 := resolvePath ctx.resolveP curPath ctx.isWindows
    if resolvedPath0 = "" then ([], zero)
    else
      let step : Option (String × Bool) :=
        if isCompilerPath then
          let trimmed := jsTrim resolvedPath0
          let cpa := extractCompilerPathAndArgs trimmed
          if ctx.isWindows ∧ cpa.compilerName = "cl.exe" then none
          else some (cpa.compilerPath,
            cpa.additionalArgs.isSome && !(trimmed.startsWith "\"")
              && cpa.compilerPath.data.contains ' ')
        else some (resolvedPath0, false)
      match step with
      | none => ([], zero)
      | some st =>
        let resolved1 := st.1
        let needsQuotes := st.2
        let isWSL : Bool := ctx.isWindows && resolved1.startsWith "/"
        let existsWithExe : String → Bool := fun p =>
          isCompilerPath && ctx.isWindows && !isWSL && ctx.fsExists (p ++ ".exe")
        let er : String × Bool :=
          if ctx.fsExists resolved1 then (resolved1, true)
          else if existsWithExe resolved1 then (resolved1 ++ ".exe", true)
          else
            let relativePath := ctx.resolveP.rootPath ++ String.mk [ctx.pathSep] ++ resolved1
            if ctx.fsExists relativePath then (relativePath, true)
            else if existsWithExe resolved1 then (resolved1 ++ ".exe", true)
            else (resolved1, false)
        let pathExists := er.2
        let resolvedNorm :=
          if ctx.pathSep = '/' then
            String.mk (er.1.data.map (fun c => if c = '\\' then '/' else c))
          else
            String.mk (er.1.data.map (fun c => if c = '/' then '\\' else c))
        let escapedPath := escapeQuotesList curPath.data
        let spans := scanMatches escapedPath ctx.curText.data
        spans.foldl
          (fun acc se =>
            let curOffset : Int := (se.1 : Int)
            let endOffset : Int := (se.2 : Int)
            let base : Int := (ctx.curTextStartOffset : Int)
            if !pathExists then
              (acc.1 ++ [mkDiag (base + curOffset) (base + endOffset)
                 ("Cannot find \"" ++ resolvedNorm ++ "\".")],
               { acc.2 with PathNonExistent := acc.2.PathNonExistent + 1 })
            else if (ranges.forcedIncludeStart ≤ curOffset ∧ curOffset ≤ ranges.forcedeIncludeEnd)
                ∨ (ranges.compileCommandsStart ≤ curOffset ∧ curOffset ≤ ranges.compileCommandsEnd)
                ∨ (ranges.compilerPathStart ≤ curOffset ∧ curOffset ≤ ranges.compilerPathEnd) then
              if needsQuotes then
                (acc.1 ++ [mkDiag (base + curOffset) (base + endOffset)
                   "Compiler path with spaces and arguments is missing \\\" around the path."],
                 { acc.2 with CompilerPathMissingQuotes := acc.2.CompilerPathMissingQuotes + 1 })
              else if ctx.fileExists resolvedNorm then acc
              else
                (acc.1 ++ [mkDiag (base + curOffset) (base + endOffset)
                   ("Path is not a file: \"" ++ resolvedNorm ++ "\".")],
                 { acc.2 with PathNotAFile := acc.2.PathNotAFile + 1 })
            else if ctx.dirExists resolvedNorm then acc
            else
              (acc.1 ++ [mkDiag (base + curOffset) (base + endOffset)
                 ("Path is not a directory: \"" ++ resolvedNorm ++ "\".")],
               { acc.2 with PathNotADirectory := acc.2.PathNotADirectory + 1 }))
          ([], zero)

/-- The compiler/IntelliSense-mode mismatch squiggle (lines 1113-1131,
Windows hosts only): locate the `"intelliSenseMode"` value token and warn
over it when the configuration is incompatible. -/
def intelliSenseModeSquiggles (ctx : SquiggleContext) (cfg : Configuration) :
    List Diag × Nat :=
  if ctx.isWindows then
    let cs := ctx.curText.data
    let s := jsSearchKey "intelliSenseMode" '"' cs
    if s ≠ -1 then
      let valueStart := jsIndexOfCharFrom cs '"' (jsIndexOfCharFrom cs ':' s)
      let valueEnd := if s = -1 then -1 else jsIndexOfCharFrom cs '"' (valueStart + 1) + 1
      if !isCompilerIntelliSenseModeCompatible cfg then
        ([mkDiag ((ctx.curTextStartOffset : Int) + valueStart)
            ((ctx.curTextStartOffset : Int) + valueEnd)
            ("intelliSenseMode "
              ++ (match cfg.intelliSenseMode with | some m => m | none => "undefined")
              ++ " is incompatible with compilerPath.")], 1)
      else ([], 0)
    else ([], 0)
  else ([], 0)

/-- Everything the pass computes that does not depend on the retained
per-configuration counters: the full diagnostic list (mode mismatch first,
then the path squiggles in path order) and the new metric counts. -/
def squiggleDiagnosticsAndMetrics (ctx : SquiggleContext) (cfg : Configuration) :
    List Diag × SquiggleMetrics :=
  let im := intelliSenseModeSquiggles ctx cfg
  let ranges := computeKeyRanges ctx.curText.data
  let pd := (pathsOfInterest cfg).foldl
    (fun acc p =>
      let r := squigglesForPath ctx cfg ranges p
      (acc.1 ++ r.1, addMetrics acc.2 r.2))
    ([], {})
  (im.1 ++ pd.1, { pd.2 with CompilerModeMismatch := im.2 })

/-- The telemetry delta (lines 1276-1291): only categories whose count
differs from the retained count are reported. -/
def changedSquiggleMetrics (prev new : SquiggleMetrics) : List (String × Nat) :=
  (if new.PathNonExistent ≠ prev.PathNonExistent then
    [("PathNonExistent", new.PathNonExistent)] else [])
  ++ (if new.PathNotAFile ≠ prev.PathNotAFile then
    [("PathNotAFile", new.PathNotAFile)] else [])
  ++ (if new.PathNotADirectory ≠ prev.PathNotADirectory then
    [("PathNotADirectory", new.PathNotADirectory)] else [])
  ++ (if new.CompilerPathMissingQuotes ≠ prev.CompilerPathMissingQuotes then
    [("CompilerPathMissingQuotes", new.CompilerPathMissingQuotes)] else [])
  ++ (if new.CompilerModeMismatch ≠ prev.CompilerModeMismatch then
    [("CompilerModeMismatch", new.CompilerModeMismatch)] else [])

/-- Lookup in the retained per-configuration-name counter map. -/
def lookupMetrics (m : List (String × SquiggleMetrics)) (name : String) :
    Option SquiggleMetrics :=
  (m.find? (fun kv => kv.1 = name)).map (fun kv => kv.2)

/-- Update the retained counter map at a name. -/
def setMetrics (m : List (String × SquiggleMetrics)) (name : String)
    (v : SquiggleMetrics) : List (String × SquiggleMetrics) :=
  if (m.find? (fun kv => kv.1 = name)).isSome then
    m.map (fun kv => if kv.1 = name then (name, v) else kv)
  else m ++ [(name, v)]

/-- One run's outputs: the diagnostic set that replaces the previous one
(empty means cleared), the telemetry event when any category changed, and the
updated retained counters. -/
structure SquiggleRunResult where
  diagnostics : List Diag
  telemetry : Option (List (String × Nat))
  prevSquiggleMetrics : List (String × SquiggleMetrics)

/-- `handleSquiggles` from the counter initialisation on (lines 1105-1296),
given the located text window: compute diagnostics and counts, report only
changed categories, and retain the new counts for the configuration's name. -/
def handleSquigglesCore (ctx : SquiggleContext) (cfg : Configuration)
    (prevMap : List (String × SquiggleMetrics)) : SquiggleRunResult :=
  let prev := (lookupMetrics prevMap cfg.name).getD {}
  let dm := squiggleDiagnosticsAndMetrics ctx cfg
  let changed := changedSquiggleMetrics prev dm.2
  { diagnostics := dm.1
    telemetry := if changed = [] then none else some changed
    prevSquiggleMetrics := setMetrics prevMap cfg.name dm.2 }

/-- The spec's notion of a textual occurrence of a raw path: "immediately
bounded by a quote or semicolon on both sides and is itself inside an
enclosing quoted string".  Written from the spec's words (quote parity for
"inside a quoted string") to state claim C1 against the pass's behaviour. -/
def boundedOccurrenceCount (p : List Char) (cs : List Char) : Nat :=
  ((List.range cs.length).filter (fun j =>
    decide (0 < j)
    && (match cs.get? (j - 1) with
        | some c => isBoundChar c
        | none => false)
    && p.isPrefixOf (cs.drop j)
    && boundHead (cs.drop (j + p.length))
    && decide ((cs.take j).count '"' % 2 = 1))).length

/-! ## Theorems -/

theorem foldl_append_flatMap {α β : Type} (f : α → List β) (l : List α) (acc : List β) :
    l.foldl (fun r e => r ++ f e) acc = acc ++ l.flatMap f := by
  induction l generalizing acc with
  | nil => simp
  | cons x xs ih => simp [ih, List.append_assoc]

theorem resolveDefaults_eq_flatMap (entries : List String) (dv : Option (List String)) :
    resolveDefaults entries dv
      = entries.flatMap (fun e => if e = "${default}" then dv.getD [] else [e]) := by
  have key : ∀ acc : List String,
      entries.foldl
        (fun result entry =>
          if entry = "${default}" then
            match dv with
            | some d => result ++ d
            | none => result
          else result ++ [entry]) acc
      = acc ++ entries.flatMap (fun e => if e = "${default}" then dv.getD [] else [e]) := by
    induction entries with
    | nil => intro acc; simp
    | cons x xs ih =>
      intro acc
      simp only [List.foldl_cons, List.flatMap_cons]
      rw [ih]
      cases dv <;> by_cases hx : x = "${default}" <;>
        simp [hx, List.append_assoc]
  simpa [resolveDefaults] using key []

/-- Claim C2: list resolution expands each `${default}` element in place to
the full default list (contributing nothing when the default is absent),
substitutes placeholders in the resulting elements, splits every resolved
string on `;` discarding empty fragments, and concatenates all fragments in
original order; in particular the three quoted examples hold. -/
theorem claim_C2_theorem (values : List String) (dv : Option (List String))
    (env : Environment) :
    resolveAndSplit (some values) dv env = resolveListSpec values dv env
    ∧ resolveAndSplit (some ["${default}"]) (some ["a", "b"]) [] = ["a", "b"]
    ∧ resolveAndSplit (some ["${default}"]) (some []) [] = []
    ∧ resolveAndSplit (some ["x;y", "${default}"]) (some ["z"]) [] = ["x", "y", "z"] := by
  refine ⟨?_, by decide, by decide, by decide⟩
  simp [resolveAndSplit, resolveListSpec, resolveDefaults_eq_flatMap,
    foldl_append_flatMap]

theorem migrate_version_eq (P : LoadParams) (doc : ConfigurationJson) :
    (migrateConfigurationJson P doc).1.version = some configVersion := by
  unfold migrateConfigurationJson
  by_cases h4 : doc.version = some configVersion
  · simp [h4]
  · simp only [h4, if_false]
    by_cases h0 : doc.version = none
    · simp [h0, updateToVersion2, updateToVersion3, updateToVersion4, configVersion]
    · simp only [h0, if_false]
      by_cases h2 : doc.version = some 2
      · simp [h2, updateToVersion3, updateToVersion4, configVersion]
      · simp only [h2, if_false]
        by_cases h3 : doc.version = some 3
        · simp [h3, updateToVersion4, configVersion]
        · simp [h3]

/-- Claim C3: whenever a load succeeds, the in-memory document's version
equals the current supported version 4, whatever the input's version was. -/
theorem claim_C3_theorem (P : LoadParams) (st : PropertiesState) (input : ParseInput)
    (h : (parsePropertiesFile P st input).2 = true) :
    ∃ d, (parsePropertiesFile P st input).1.configurationJson = some d
      ∧ d.version = some 4 := by
  cases input with
  | empty => simp [parsePropertiesFile] at h
  | malformed => simp [parsePropertiesFile] at h
  | parsed doc =>
    by_cases hc : doc.configurations = []
    · simp [parsePropertiesFile, hc] at h
    · refine ⟨(migrateConfigurationJson P
        { configurations := doc.configurations.map
            (fun c => { c with configurationProvider := P.checkId c.configurationProvider })
          env := doc.env.map stripReservedEnv
          version := doc.version
          enableConfigurationSquiggles := doc.enableConfigurationSquiggles }).1,
        ?_, migrate_version_eq P _⟩
      simp [parsePropertiesFile, hc]

theorem claim_C3_witness :
    ∃ d, (parsePropertiesFile { platform := .linuxOther } {}
        (.parsed { configurations := [{ name := "Linux" }], version := some 4 })).1.configurationJson
      = some d ∧ d.version = some 4 :=
  claim_C3_theorem { platform := .linuxOther } {}
    (.parsed { configurations := [{ name := "Linux" }], version := some 4 }) (by decide)

/-- Claim C4: an empty file, malformed JSON, or a missing/empty
`configurations` array reports no success and leaves the prior in-memory
state completely untouched. -/
theorem claim_C4_theorem (P : LoadParams) (st : PropertiesState) (input : ParseInput)
    (h : input = .empty ∨ input = .malformed
      ∨ ∃ doc, input = .parsed doc ∧ doc.configurations = []) :
    parsePropertiesFile P st input = (st, false) := by
  rcases h with h | h | ⟨doc, h, hdoc⟩ <;> subst h
  · rfl
  · rfl
  · simp [parsePropertiesFile, hdoc]

theorem claim_C4_witness :
    parsePropertiesFile { platform := .win32 }
        { configurationJson := some { configurations := [{ name := "Win32" }], version := some 4 },
          currentConfigurationIndex := 0, configurationIncomplete := false }
        (.parsed { configurations := [], version := some 2 })
      = ({ configurationJson := some { configurations := [{ name := "Win32" }], version := some 4 },
           currentConfigurationIndex := 0, configurationIncomplete := false }, false) :=
  claim_C4_theorem { platform := .win32 } _ _
    (Or.inr (Or.inr ⟨{ configurations := [], version := some 2 }, rfl, rfl⟩))

theorem getConfigIndexForPlatform_bounds (platform : Platform) (doc : ConfigurationJson)
    (h : doc.configurations ≠ []) :
    0 ≤ getConfigIndexForPlatform platform doc
      ∧ getConfigIndexForPlatform platform doc < (doc.configurations.length : Int) := by
  have hlen : 0 < doc.configurations.length := List.length_pos.mpr h
  unfold getConfigIndexForPlatform
  dsimp only
  split
  · rename_i i hf
    have hi := (List.findIdx?_eq_some_iff_findIdx_eq.mp hf).1
    constructor
    · exact Int.natCast_nonneg i
    · exact_mod_cast hi
  · constructor <;> omega

/-- Claim C5 (amended): on a successful load with a previously selected
configuration, the new selected index is the index of the first configuration
in the new list whose name equals the previously selected configuration's
name; when no configuration has that name, the previous numeric index is
retained when it is still within the new list's range, and otherwise the
selection falls back to the platform-preferred index; in all cases the
resulting index lies in `[0, configurations.length)`. -/
theorem claim_C5_theorem (P : LoadParams) (st : PropertiesState)
    (old newJson : ConfigurationJson) (sel : Configuration)
    (h1 : st.configurationJson = some old)
    (h2 : st.configurationIncomplete = false)
    (h3 : 0 ≤ st.currentConfigurationIndex)
    (h4 : st.currentConfigurationIndex < (old.configurations.length : Int))
    (h5 : old.configurations.get? st.currentConfigurationIndex.toNat = some sel)
    (h6 : newJson.configurations ≠ []) :
    (parsePropertiesFile P st (.parsed newJson)).1.currentConfigurationIndex
      = (match newJson.configurations.findIdx? (fun c => c.name = sel.name) with
         | some i => (i : Int)
         | none =>
           if st.currentConfigurationIndex < (newJson.configurations.length : Int) then
             st.currentConfigurationIndex
           else getConfigIndexForPlatform P.platform newJson)
    ∧ 0 ≤ (parsePropertiesFile P st (.parsed newJson)).1.currentConfigurationIndex
    ∧ (parsePropertiesFile P st (.parsed newJson)).1.currentConfigurationIndex
        < (newJson.configurations.length : Int) := by
  have hcond : (¬st.configurationIncomplete = true) ∧ 0 ≤ st.currentConfigurationIndex
      ∧ st.currentConfigurationIndex < (old.configurations.length : Int) := by
    refine ⟨?_, h3, h4⟩
    simp [h2]
  have hmain : (parsePropertiesFile P st (.parsed newJson)).1.currentConfigurationIndex
      = (if ((match newJson.configurations.findIdx? (fun c => c.name = sel.name) with
              | some i => (i : Int)
              | none => st.currentConfigurationIndex : Int) < 0
            ∨ (newJson.configurations.length : Int)
              ≤ (match newJson.configurations.findIdx? (fun c => c.name = sel.name) with
                 | some i => (i : Int)
                 | none => st.currentConfigurationIndex : Int)) then
          getConfigIndexForPlatform P.platform newJson
        else
          (match newJson.configurations.findIdx? (fun c => c.name = sel.name) with
           | some i => (i : Int)
           | none => st.currentConfigurationIndex : Int)) := by
    unfold parsePropertiesFile
    dsimp only
    rw [if_neg h6, h1]
    dsimp only
    rw [if_pos hcond, h5]
  rw [hmain]
  cases hfind : newJson.configurations.findIdx? (fun c => c.name = sel.name) with
  | some i =>
    have hi : i < newJson.configurations.length :=
      (List.findIdx?_eq_some_iff_findIdx_eq.mp hfind).1
    have hnotout : ¬ ((i : Int) < 0 ∨ (newJson.configurations.length : Int) ≤ (i : Int)) := by
      push_neg
      exact ⟨Int.natCast_nonneg i, by exact_mod_cast hi⟩
    dsimp only
    rw [if_neg hnotout]
    exact ⟨rfl, Int.natCast_nonneg i, by exact_mod_cast hi⟩
  | none =>
    dsimp only
    by_cases hlt : st.currentConfigurationIndex < (newJson.configurations.length : Int)
    · have hnotout : ¬ (st.currentConfigurationIndex < 0
          ∨ (newJson.configurations.length : Int) ≤ st.currentConfigurationIndex) := by
        push_neg
        exact ⟨h3, hlt⟩
      rw [if_neg hnotout, if_pos hlt]
      exact ⟨rfl, h3, hlt⟩
    · have hout : (st.currentConfigurationIndex < 0
          ∨ (newJson.configurations.length : Int) ≤ st.currentConfigurationIndex) := by
        right; omega
      have hb := getConfigIndexForPlatform_bounds P.platform newJson h6
      rw [if_pos hout, if_neg hlt]
      exact ⟨rfl, hb.1, hb.2⟩

theorem claim_C5_counterexample :
    (parsePropertiesFile { platform := .linuxOther }
        { configurationJson := some
            { configurations := [{ name := "Foo" }, { name := "Bar" }], version := some 4 },
          currentConfigurationIndex := 0, configurationIncomplete := false }
        (.parsed { configurations := [{ name := "Bar" }, { name := "Baz" }], version := some 4 })).1.currentConfigurationIndex
      ≠ getConfigIndexForPlatform Platform.linuxOther
          { configurations := [{ name := "Bar" }, { name := "Baz" }], version := some 4 } := by
  decide

theorem claim_C5_witness :
    (parsePropertiesFile { platform := .linuxOther }
        { configurationJson := some { configurations := [{ name := "A" }], version := some 4 },
          currentConfigurationIndex := 0, configurationIncomplete := false }
        (.parsed { configurations := [{ name := "B" }, { name := "A" }], version := some 4 })).1.currentConfigurationIndex = 1
    ∧ 0 ≤ (parsePropertiesFile { platform := .linuxOther }
        { configurationJson := some { configurations := [{ name := "A" }], version := some 4 },
          currentConfigurationIndex := 0, configurationIncomplete := false }
        (.parsed { configurations := [{ name := "B" }, { name := "A" }], version := some 4 })).1.currentConfigurationIndex
    ∧ (parsePropertiesFile { platform := .linuxOther }
        { configurationJson := some { configurations := [{ name := "A" }], version := some 4 },
          currentConfigurationIndex := 0, configurationIncomplete := false }
        (.parsed { configurations := [{ name := "B" }, { name := "A" }], version := some 4 })).1.currentConfigurationIndex < 2 := by
  exact claim_C5_theorem { platform := .linuxOther } _ _ _ { name := "A" }
    rfl rfl (by decide) (by decide) rfl (by decide)

/-- Claim C6 (amended): `resolvePath` returns the empty string for an empty or
`${default}` input; otherwise it substitutes variables, replaces the
workspace-root tokens with the workspace root (`"${workspaceFolder}/inc"` with
root `/proj` yields `/proj/inc`), replaces `${vcpkgRoot}` when known, strips
literal `*` characters, and on a Windows host remaps a leading `/mnt/<drive>/`
to `<drive>:/` keeping the drive letter exactly as written (so `"/mnt/c/foo"`
yields `"c:/foo"`), else prepends the configured root-filesystem prefix to the
rest of a path starting with `/`. -/
theorem claim_C6_theorem (P : ResolveParams) (w : Bool) :
    resolvePath P "" w = ""
    ∧ resolvePath P "${default}" w = ""
    ∧ resolvePath { rootPath := "/proj", rootBasename := "proj" }
        "${workspaceFolder}/inc" false = "/proj/inc"
    ∧ resolvePath { rootPath := "/proj", rootBasename := "proj" } "/mnt/c/foo" true = "c:/foo"
    ∧ resolvePath { rootPath := "/proj", rootBasename := "proj" } "/usr/*/inc" false = "/usr//inc"
    ∧ resolvePath { rootPath := "/proj", rootBasename := "proj", rootfs := "C:/wsl/" }
        "/usr/inc" true = "C:/wsl/usr/inc"
    ∧ resolvePath { rootPath := "/proj", rootBasename := "proj", vcpkgRoot := "/v" }
        "${vcpkgRoot}/inc" false = "/v/inc" := by
  refine ⟨?_, ?_, by decide, by decide, by decide, by decide, by decide⟩
  · simp [resolvePath]
  · simp [resolvePath]

theorem claim_C6_counterexample :
    resolvePath { rootPath := "/proj", rootBasename := "proj" } "/mnt/c/foo" true
      ≠ "C:/foo" := by
  decide

/-- Claim C7: compiler/IntelliSense-mode compatibility returns true whenever
`compilerPath` or `intelliSenseMode` is unset, empty, or `${default}`; when
both are set to non-default values it returns false exactly when one but not
both of "extracted compiler name is cl.exe", "mode is msvc-x64" holds; in
particular false for a `cl.exe` path with `gcc-x64` and true with `msvc-x64`. -/
theorem claim_C7_theorem (c1 c2 : Configuration) (p m : String)
    (h1 : c1.compilerPath = none ∨ c1.compilerPath = some ""
      ∨ c1.compilerPath = some "${default}" ∨ c1.intelliSenseMode = none
      ∨ c1.intelliSenseMode = some "" ∨ c1.intelliSenseMode = some "${default}")
    (h2 : c2.compilerPath = some p) (h3 : p ≠ "") (h4 : p ≠ "${default}")
    (h5 : c2.intelliSenseMode = some m) (h6 : m ≠ "") (h7 : m ≠ "${default}") :
    isCompilerIntelliSenseModeCompatible c1 = true
    ∧ (isCompilerIntelliSenseModeCompatible c2 = false
        ↔ Xor' ((extractCompilerPathAndArgs p).compilerName = "cl.exe") (m = "msvc-x64"))
    ∧ isCompilerIntelliSenseModeCompatible
        { name := "A", compilerPath := some "C:/bin/cl.exe",
          intelliSenseMode := some "gcc-x64" } = false
    ∧ isCompilerIntelliSenseModeCompatible
        { name := "A", compilerPath := some "C:/bin/cl.exe",
          intelliSenseMode := some "msvc-x64" } = true := by
  refine ⟨?_, ?_, by decide, by decide⟩
  · simp only [isCompilerIntelliSenseModeCompatible]
    rw [if_pos h1]
  · have hcond : ¬ (c2.compilerPath = none ∨ c2.compilerPath = some ""
        ∨ c2.compilerPath = some "${default}" ∨ c2.intelliSenseMode = none
        ∨ c2.intelliSenseMode = some "" ∨ c2.intelliSenseMode = some "${default}") := by
      simp [h2, h5]
      exact ⟨h3, h4, h6, h7⟩
    simp only [isCompilerIntelliSenseModeCompatible]
    rw [if_neg hcond]
    rw [h2, h5]
    by_cases hcl : (extractCompilerPathAndArgs p).compilerName = "cl.exe" <;>
      by_cases hm : m = "msvc-x64" <;>
      simp [hcl, hm, Xor']

theorem claim_C7_witness :
    isCompilerIntelliSenseModeCompatible { name := "B" } = true
    ∧ (isCompilerIntelliSenseModeCompatible
        { name := "C", compilerPath := some "/usr/bin/gcc",
          intelliSenseMode := some "gcc-x64" } = false
        ↔ Xor' ((extractCompilerPathAndArgs "/usr/bin/gcc").compilerName = "cl.exe")
            ("gcc-x64" = "msvc-x64"))
    ∧ isCompilerIntelliSenseModeCompatible
        { name := "A", compilerPath := some "C:/bin/cl.exe",
          intelliSenseMode := some "gcc-x64" } = false
    ∧ isCompilerIntelliSenseModeCompatible
        { name := "A", compilerPath := some "C:/bin/cl.exe",
          intelliSenseMode := some "msvc-x64" } = true :=
  claim_C7_theorem { name := "B" }
    { name := "C", compilerPath := some "/usr/bin/gcc", intelliSenseMode := some "gcc-x64" }
    "/usr/bin/gcc" "gcc-x64" (Or.inl rfl) rfl (by decide) (by decide) rfl
    (by decide) (by decide)

theorem updateToVersion3Config_idem (P : LoadParams) (c : Configuration) :
    updateToVersion3Config P (updateToVersion3Config P c) = updateToVersion3Config P c := by
  unfold updateToVersion3Config
  by_cases hname : c.name = "Mac" ∨ (P.platform = .darwin ∧ c.name ≠ "Win32" ∧ c.name ≠ "Linux")
  · by_cases hmac : c.macFrameworkPath = none
    · simp [hname, hmac]
    · simp [hname, hmac]
  · simp [hname]

theorem u4StageCompilerPath_intelliSenseMode (P : LoadParams) (c : Configuration) :
    (u4StageCompilerPath P c).intelliSenseMode = c.intelliSenseMode := by
  unfold u4StageCompilerPath; split <;> rfl

theorem u4StageCStandard_intelliSenseMode (P : LoadParams) (c : Configuration) :
    (u4StageCStandard P c).intelliSenseMode = c.intelliSenseMode := by
  unfold u4StageCStandard; split <;> rfl

theorem u4StageCppStandard_intelliSenseMode (P : LoadParams) (c : Configuration) :
    (u4StageCppStandard P c).intelliSenseMode = c.intelliSenseMode := by
  unfold u4StageCppStandard; split <;> rfl

theorem u4StageIntelliSenseMode_compilerPath (P : LoadParams) (c : Configuration) :
    (u4StageIntelliSenseMode P c).compilerPath = c.compilerPath := by
  unfold u4StageIntelliSenseMode; split <;> rfl

theorem u4StageCStandard_compilerPath (P : LoadParams) (c : Configuration) :
    (u4StageCStandard P c).compilerPath = c.compilerPath := by
  unfold u4StageCStandard; split <;> rfl

theorem u4StageCppStandard_compilerPath (P : LoadParams) (c : Configuration) :
    (u4StageCppStandard P c).compilerPath = c.compilerPath := by
  unfold u4StageCppStandard; split <;> rfl

theorem u4StageIntelliSenseMode_compileCommands (P : LoadParams) (c : Configuration) :
    (u4StageIntelliSenseMode P c).compileCommands = c.compileCommands := by
  unfold u4StageIntelliSenseMode; split <;> rfl

theorem u4StageCompilerPath_compileCommands (P : LoadParams) (c : Configuration) :
    (u4StageCompilerPath P c).compileCommands = c.compileCommands := by
  unfold u4StageCompilerPath; split <;> rfl

theorem u4StageCStandard_compileCommands (P : LoadParams) (c : Configuration) :
    (u4StageCStandard P c).compileCommands = c.compileCommands := by
  unfold u4StageCStandard; split <;> rfl

theorem u4StageCppStandard_compileCommands (P : LoadParams) (c : Configuration) :
    (u4StageCppStandard P c).compileCommands = c.compileCommands := by
  unfold u4StageCppStandard; split <;> rfl

theorem u4StageIntelliSenseMode_cStandard (P : LoadParams) (c : Configuration) :
    (u4StageIntelliSenseMode P c).cStandard = c.cStandard := by
  unfold u4StageIntelliSenseMode; split <;> rfl

theorem u4StageCompilerPath_cStandard (P : LoadParams) (c : Configuration) :
    (u4StageCompilerPath P c).cStandard = c.cStandard := by
  unfold u4StageCompilerPath; split <;> rfl

theorem u4StageCppStandard_cStandard (P : LoadParams) (c : Configuration) :
    (u4StageCppStandard P c).cStandard = c.cStandard := by
  unfold u4StageCppStandard; split <;> rfl

theorem u4StageIntelliSenseMode_cppStandard (P : LoadParams) (c : Configuration) :
    (u4StageIntelliSenseMode P c).cppStandard = c.cppStandard := by
  unfold u4StageIntelliSenseMode; split <;> rfl

theorem u4StageCompilerPath_cppStandard (P : LoadParams) (c : Configuration) :
    (u4StageCompilerPath P c).cppStandard = c.cppStandard := by
  unfold u4StageCompilerPath; split <;> rfl

theorem u4StageCStandard_cppStandard (P : LoadParams) (c : Configuration) :
    (u4StageCStandard P c).cppStandard = c.cppStandard := by
  unfold u4StageCStandard; split <;> rfl

theorem u4StageIntelliSenseMode_full (P : LoadParams) (c : Configuration) :
    u4StageIntelliSenseMode P (updateToVersion4Config P c) = updateToVersion4Config P c := by
  unfold u4StageIntelliSenseMode
  rw [if_neg ?_]
  rintro ⟨hnone, hset⟩
  rw [updateToVersion4Config, u4StageCppStandard_intelliSenseMode,
    u4StageCStandard_intelliSenseMode, u4StageCompilerPath_intelliSenseMode] at hnone
  unfold u4StageIntelliSenseMode at hnone
  by_cases hfire : c.intelliSenseMode = none ∧ ¬strTruthy P.settingsDefaultIntelliSenseMode
  · rw [if_pos hfire] at hnone
    simp at hnone
  · rw [if_neg hfire] at hnone
    exact hfire ⟨hnone, hset⟩

theorem u4StageCompilerPath_full (P : LoadParams) (c : Configuration) :
    u4StageCompilerPath P (updateToVersion4Config P c) = updateToVersion4Config P c := by
  unfold u4StageCompilerPath
  rw [if_neg ?_]
  rintro ⟨hnone, hdef, hcc, hset⟩
  rw [updateToVersion4Config, u4StageCppStandard_compilerPath,
    u4StageCStandard_compilerPath] at hnone
  rw [updateToVersion4Config, u4StageCppStandard_compileCommands,
    u4StageCStandard_compileCommands, u4StageCompilerPath_compileCommands,
    u4StageIntelliSenseMode_compileCommands] at hcc
  unfold u4StageCompilerPath at hnone
  by_cases hfire : (u4StageIntelliSenseMode P c).compilerPath = none
      ∧ strTruthy P.defaultCompilerPath
      ∧ ¬strTruthy (u4StageIntelliSenseMode P c).compileCommands
      ∧ ¬strTruthy P.settingsDefaultCompilerPath
  · rw [if_pos hfire] at hnone
    have : P.defaultCompilerPath = none := hnone
    rw [this] at hdef
    simp [strTruthy] at hdef
  · rw [if_neg hfire] at hnone
    rw [u4StageIntelliSenseMode_compileCommands] at hfire
    rw [u4StageIntelliSenseMode_compilerPath] at hnone
    exact hfire ⟨by rw [u4StageIntelliSenseMode_compilerPath]; exact hnone, hdef, hcc, hset⟩

theorem u4StageCStandard_full (P : LoadParams) (c : Configuration) :
    u4StageCStandard P (updateToVersion4Config P c) = updateToVersion4Config P c := by
  unfold u4StageCStandard
  rw [if_neg ?_]
  rintro ⟨hns, hdef, hset⟩
  rw [updateToVersion4Config, u4StageCppStandard_cStandard] at hns
  unfold u4StageCStandard at hns
  by_cases hfire : ¬strTruthy (u4StageCompilerPath P (u4StageIntelliSenseMode P c)).cStandard
      ∧ strTruthy P.defaultCStandard ∧ ¬strTruthy P.settingsDefaultCStandard
  · rw [if_pos hfire] at hns
    exact hns hdef
  · rw [if_neg hfire] at hns
    exact hfire ⟨hns, hdef, hset⟩

theorem u4StageCppStandard_full (P : LoadParams) (c : Configuration) :
    u4StageCppStandard P (updateToVersion4Config P c) = updateToVersion4Config P c := by
  unfold u4StageCppStandard
  rw [if_neg ?_]
  rintro ⟨hns, hdef, hset⟩
  rw [updateToVersion4Config] at hns
  unfold u4StageCppStandard at hns
  by_cases hfire : ¬strTruthy (u4StageCStandard P (u4StageCompilerPath P
        (u4StageIntelliSenseMode P c))).cppStandard
      ∧ strTruthy P.defaultCppStandard ∧ ¬strTruthy P.settingsDefaultCppStandard
  · rw [if_pos hfire] at hns
    exact hns hdef
  · rw [if_neg hfire] at hns
    exact hfire ⟨hns, hdef, hset⟩

theorem updateToVersion4Config_idem (P : LoadParams) (c : Configuration) :
    updateToVersion4Config P (updateToVersion4Config P c) = updateToVersion4Config P c := by
  conv_lhs => rw [updateToVersion4Config]
  rw [u4StageIntelliSenseMode_full, u4StageCompilerPath_full, u4StageCStandard_full,
    u4StageCppStandard_full]

theorem claim_C8_helper_v2_idem (doc : ConfigurationJson) :
    updateToVersion2 (updateToVersion2 doc) = updateToVersion2 doc := rfl

/-- Claim C8: a document with an absent version migrates through exactly the
three sequential steps absent→2, 2→3, 3→4 to a version-4 document; each step
is idempotent; migrating a document already at version 4 is a no-op. -/
theorem claim_C8_theorem (P : LoadParams) (doc doc4 : ConfigurationJson)
    (h : doc.version = none) (h4 : doc4.version = some 4) :
    migrateConfigurationJson P doc
      = (updateToVersion4 P (updateToVersion3 P (updateToVersion2 doc)), true)
    ∧ (updateToVersion4 P (updateToVersion3 P (updateToVersion2 doc))).version = some 4
    ∧ updateToVersion2 (updateToVersion2 doc) = updateToVersion2 doc
    ∧ updateToVersion3 P (updateToVersion3 P doc) = updateToVersion3 P doc
    ∧ updateToVersion4 P (updateToVersion4 P doc) = updateToVersion4 P doc
    ∧ migrateConfigurationJson P doc4 = (doc4, false) := by
  refine ⟨?_, rfl, rfl, ?_, ?_, ?_⟩
  · simp [migrateConfigurationJson, h, configVersion, updateToVersion2, updateToVersion3]
  · have hff : updateToVersion3Config P ∘ updateToVersion3Config P
        = updateToVersion3Config P :=
      funext (fun c => updateToVersion3Config_idem P c)
    simp [updateToVersion3, List.map_map, hff]
  · have hff : updateToVersion4Config P ∘ updateToVersion4Config P
        = updateToVersion4Config P :=
      funext (fun c => updateToVersion4Config_idem P c)
    simp [updateToVersion4, List.map_map, hff]
  · simp [migrateConfigurationJson, h4, configVersion]

theorem claim_C8_witness :
    migrateConfigurationJson { platform := .linuxOther } { configurations := [] }
      = (updateToVersion4 { platform := .linuxOther }
          (updateToVersion3 { platform := .linuxOther }
            (updateToVersion2 { configurations := [] })), true)
    ∧ (updateToVersion4 { platform := .linuxOther }
        (updateToVersion3 { platform := .linuxOther }
          (updateToVersion2 { configurations := [] }))).version = some 4
    ∧ updateToVersion2 (updateToVersion2 { configurations := [] })
        = updateToVersion2 { configurations := [] }
    ∧ updateToVersion3 { platform := .linuxOther }
        (updateToVersion3 { platform := .linuxOther } { configurations := [] })
        = updateToVersion3 { platform := .linuxOther } { configurations := [] }
    ∧ updateToVersion4 { platform := .linuxOther }
        (updateToVersion4 { platform := .linuxOther } { configurations := [] })
        = updateToVersion4 { platform := .linuxOther } { configurations := [] }
    ∧ migrateConfigurationJson { platform := .linuxOther }
        { configurations := [], version := some 4 }
      = ({ configurations := [], version := some 4 }, false) :=
  claim_C8_theorem { platform := .linuxOther } { configurations := [] }
    { configurations := [], version := some 4 } rfl rfl

theorem changedSquiggleMetrics_self (m : SquiggleMetrics) :
    changedSquiggleMetrics m m = [] := by
  simp [changedSquiggleMetrics]

theorem find?_map_setEntry (m : List (String × SquiggleMetrics)) (name : String)
    (v : SquiggleMetrics) :
    (m.map (fun kv => if kv.1 = name then (name, v) else kv)).find?
        (fun kv => kv.1 = name)
      = if (m.find? (fun kv => kv.1 = name)).isSome then some (name, v) else none := by
  induction m with
  | nil => simp
  | cons kv m ih =>
    by_cases hk : kv.1 = name
    · simp [hk]
    · rw [List.find?_cons_of_neg _ (by simp [hk])]
      simp [hk, ih]

theorem lookupMetrics_setMetrics (m : List (String × SquiggleMetrics)) (name : String)
    (v : SquiggleMetrics) :
    lookupMetrics (setMetrics m name v) name = some v := by
  unfold setMetrics lookupMetrics
  by_cases h : (m.find? (fun kv => kv.1 = name)).isSome
  · rw [if_pos h, find?_map_setEntry, if_pos h]
    rfl
  · rw [if_neg h, List.find?_append,
      Option.not_isSome_iff_eq_none.mp h]
    simp

/-- Claim C9: recomputing the squiggles for an unchanged document text and an
unchanged filesystem state yields an identical diagnostic set, and the second
run reports zero per-category telemetry deltas, because only categories whose
count differs from the counts retained for that configuration name are
reported. -/
theorem claim_C9_theorem (ctx : SquiggleContext) (cfg : Configuration)
    (prevMap : List (String × SquiggleMetrics)) :
    (handleSquigglesCore ctx cfg
        (handleSquigglesCore ctx cfg prevMap).prevSquiggleMetrics).diagnostics
      = (handleSquigglesCore ctx cfg prevMap).diagnostics
    ∧ (handleSquigglesCore ctx cfg
        (handleSquigglesCore ctx cfg prevMap).prevSquiggleMetrics).telemetry = none := by
  constructor
  · rfl
  · unfold handleSquigglesCore
    dsimp only
    rw [lookupMetrics_setMetrics]
    simp [changedSquiggleMetrics_self]

theorem isPrefixOf_append_self (pat rest : List Char) :
    pat.isPrefixOf (pat ++ rest) = true :=
  List.isPrefixOf_iff_prefix.mpr (List.prefix_append _ _)

theorem replaceFirstList_at_head (pat repl rest : List Char) (hp : pat ≠ []) :
    replaceFirstList pat repl (pat ++ rest) = repl ++ rest := by
  cases pat with
  | nil => exact absurd rfl hp
  | cons p ps =>
    have hpre : (p :: ps).isPrefixOf (p :: (ps ++ rest)) = true := by
      simpa using isPrefixOf_append_self (p :: ps) rest
    have hdrop : List.drop (p :: ps).length (p :: (ps ++ rest)) = rest := by
      simpa using List.drop_left (p :: ps) rest
    show replaceFirstList (p :: ps) repl (p :: (ps ++ rest)) = repl ++ rest
    simp only [replaceFirstList]
    rw [if_pos hpre, hdrop]

theorem replaceFirstList_first_occurrence (pat repl xs rest : List Char) (hp : pat ≠ [])
    (hxs : ∀ j, j < xs.length → pat.isPrefixOf ((xs ++ (pat ++ rest)).drop j) = false) :
    replaceFirstList pat repl (xs ++ (pat ++ rest)) = xs ++ (repl ++ rest) := by
  induction xs with
  | nil => simpa using replaceFirstList_at_head pat repl rest hp
  | cons x xs ih =>
    have h0 : pat.isPrefixOf (x :: (xs ++ (pat ++ rest))) = false := by
      simpa using hxs 0 (by simp)
    show replaceFirstList pat repl (x :: (xs ++ (pat ++ rest)))
      = x :: (xs ++ (repl ++ rest))
    simp only [replaceFirstList]
    rw [if_neg (by simp [h0])]
    refine congrArg (fun l => x :: l) (ih ?_)
    intro j hj
    simpa using hxs (j + 1) (by simpa using Nat.succ_lt_succ hj)

theorem containsSubList_of_isPrefixOf (pat l : List Char) (h : pat.isPrefixOf l = true) :
    containsSubList pat l = true := by
  cases l with
  | nil => simpa [containsSubList] using h
  | cons c cs => simp [containsSubList, h]

theorem containsSubList_append_self (pat xs ys : List Char) :
    containsSubList pat (xs ++ (pat ++ ys)) = true := by
  induction xs with
  | nil => exact containsSubList_of_isPrefixOf _ _ (isPrefixOf_append_self pat ys)
  | cons x xs ih => simp [containsSubList, ih]

theorem resolvePath_first_occurrence_workspaceFolder (P : ResolveParams) (a b c : String)
    (h1 : resolveVariables (a ++ "${workspaceFolder}" ++ b ++ "${workspaceFolder}" ++ c)
        (extendedEnvironment P)
      = a ++ "${workspaceFolder}" ++ b ++ "${workspaceFolder}" ++ c)
    (ha : ∀ j, j < a.data.length → "${workspaceFolder}".data.isPrefixOf
        ((a.data ++ ("${workspaceFolder}".data ++ (b.data
          ++ ("${workspaceFolder}".data ++ c.data)))).drop j) = false)
    (h2 : jsIncludes (a ++ P.rootPath ++ b ++ "${workspaceFolder}" ++ c)
        "${workspaceRoot}" = false)
    (h3 : jsIncludes (a ++ P.rootPath ++ b ++ "${workspaceFolder}" ++ c)
        "${vcpkgRoot}" = false)
    (h4 : (a ++ P.rootPath ++ b ++ "${workspaceFolder}" ++ c).data.contains '*' = false) :
    resolvePath P (a ++ "${workspaceFolder}" ++ b ++ "${workspaceFolder}" ++ c) false
      = a ++ P.rootPath ++ b ++ "${workspaceFolder}" ++ c := by
  have h18 : ("${workspaceFolder}" : String).data.length = 18 := rfl
  have h0l : ("" : String).data.length = 0 := rfl
  have h10 : ("${default}" : String).data.length = 10 := rfl
  have hne : ¬((a ++ "${workspaceFolder}" ++ b ++ "${workspaceFolder}" ++ c) = ""
      ∨ (a ++ "${workspaceFolder}" ++ b ++ "${workspaceFolder}" ++ c) = "${default}") := by
    rintro (he | he)
    · have hl := congrArg (fun s => s.data.length) he
      simp only [String.data_append, List.length_append, h18, h0l] at hl
      omega
    · have hl := congrArg (fun s => s.data.length) he
      simp only [String.data_append, List.length_append, h18, h10] at hl
      omega
  have hdata : (a ++ "${workspaceFolder}" ++ b ++ "${workspaceFolder}" ++ c).data
      = a.data ++ ("${workspaceFolder}".data ++ (b.data
          ++ ("${workspaceFolder}".data ++ c.data))) := by
    simp [String.data_append]
  have hg1 : jsIncludes (a ++ "${workspaceFolder}" ++ b ++ "${workspaceFolder}" ++ c)
      "${workspaceFolder}" = true := by
    unfold jsIncludes
    rw [hdata]
    exact containsSubList_append_self _ _ _
  have hrepl : jsReplaceFirst (a ++ "${workspaceFolder}" ++ b ++ "${workspaceFolder}" ++ c)
      "${workspaceFolder}" P.rootPath = a ++ P.rootPath ++ b ++ "${workspaceFolder}" ++ c := by
    unfold jsReplaceFirst
    rw [String.ext_iff]
    show replaceFirstList "${workspaceFolder}".data P.rootPath.data
        (a ++ "${workspaceFolder}" ++ b ++ "${workspaceFolder}" ++ c).data
      = (a ++ P.rootPath ++ b ++ "${workspaceFolder}" ++ c).data
    rw [hdata]
    rw [replaceFirstList_first_occurrence "${workspaceFolder}".data P.rootPath.data
      a.data (b.data ++ ("${workspaceFolder}".data ++ c.data)) (by decide) ha]
    simp [String.data_append]
  unfold resolvePath
  rw [if_neg hne]
  dsimp only
  rw [h1]
  rw [if_pos hg1]
  rw [hrepl]
  rw [if_neg (show ¬(jsIncludes (a ++ P.rootPath ++ b ++ "${workspaceFolder}" ++ c)
    "${workspaceRoot}" = true) by simp [h2])]
  rw [if_neg (show ¬(jsIncludes (a ++ P.rootPath ++ b ++ "${workspaceFolder}" ++ c)
      "${vcpkgRoot}" = true ∧ P.vcpkgRoot ≠ "") by simp [h3])]
  rw [if_neg (show ¬((a ++ P.rootPath ++ b ++ "${workspaceFolder}" ++ c).data.contains '*'
    = true) by simpa using h4)]
  simp

theorem resolvePath_first_occurrence_workspaceRoot (P : ResolveParams) (a b c : String)
    (h1 : resolveVariables (a ++ "${workspaceRoot}" ++ b ++ "${workspaceRoot}" ++ c)
        (extendedEnvironment P)
      = a ++ "${workspaceRoot}" ++ b ++ "${workspaceRoot}" ++ c)
    (hg0 : jsIncludes (a ++ "${workspaceRoot}" ++ b ++ "${workspaceRoot}" ++ c)
        "${workspaceFolder}" = false)
    (ha : ∀ j, j < a.data.length → "${workspaceRoot}".data.isPrefixOf
        ((a.data ++ ("${workspaceRoot}".data ++ (b.data
          ++ ("${workspaceRoot}".data ++ c.data)))).drop j) = false)
    (h3 : jsIncludes (a ++ P.rootPath ++ b ++ "${workspaceRoot}" ++ c)
        "${vcpkgRoot}" = false)
    (h4 : (a ++ P.rootPath ++ b ++ "${workspaceRoot}" ++ c).data.contains '*' = false) :
    resolvePath P (a ++ "${workspaceRoot}" ++ b ++ "${workspaceRoot}" ++ c) false
      = a ++ P.rootPath ++ b ++ "${workspaceRoot}" ++ c := by
  have h16 : ("${workspaceRoot}" : String).data.length = 16 := rfl
  have h0l : ("" : String).data.length = 0 := rfl
  have h10 : ("${default}" : String).data.length = 10 := rfl
  have hne : ¬((a ++ "${workspaceRoot}" ++ b ++ "${workspaceRoot}" ++ c) = ""
      ∨ (a ++ "${workspaceRoot}" ++ b ++ "${workspaceRoot}" ++ c) = "${default}") := by
    rintro (he | he)
    · have hl := congrArg (fun s => s.data.length) he
      simp only [String.data_append, List.length_append, h16, h0l] at hl
      omega
    · have hl := congrArg (fun s => s.data.length) he
      simp only [String.data_append, List.length_append, h16, h10] at hl
      omega
  have hdata : (a ++ "${workspaceRoot}" ++ b ++ "${workspaceRoot}" ++ c).data
      = a.data ++ ("${workspaceRoot}".data ++ (b.data
          ++ ("${workspaceRoot}".data ++ c.data))) := by
    simp [String.data_append]
  have hg2 : jsIncludes (a ++ "${workspaceRoot}" ++ b ++ "${workspaceRoot}" ++ c)
      "${workspaceRoot}" = true := by
    unfold jsIncludes
    rw [hdata]
    exact containsSubList_append_self _ _ _
  have hrepl : jsReplaceFirst (a ++ "${workspaceRoot}" ++ b ++ "${workspaceRoot}" ++ c)
      "${workspaceRoot}" P.rootPath = a ++ P.rootPath ++ b ++ "${workspaceRoot}" ++ c := by
    unfold jsReplaceFirst
    rw [String.ext_iff]
    show replaceFirstList "${workspaceRoot}".data P.rootPath.data
        (a ++ "${workspaceRoot}" ++ b ++ "${workspaceRoot}" ++ c).data
      = (a ++ P.rootPath ++ b ++ "${workspaceRoot}" ++ c).data
    rw [hdata]
    rw [replaceFirstList_first_occurrence "${workspaceRoot}".data P.rootPath.data
      a.data (b.data ++ ("${workspaceRoot}".data ++ c.data)) (by decide) ha]
    simp [String.data_append]
  unfold resolvePath
  rw [if_neg hne]
  dsimp only
  rw [h1]
  rw [if_neg (show ¬(jsIncludes (a ++ "${workspaceRoot}" ++ b ++ "${workspaceRoot}" ++ c)
    "${workspaceFolder}" = true) by simp [hg0])]
  rw [if_pos hg2]
  rw [hrepl]
  rw [if_neg (show ¬(jsIncludes (a ++ P.rootPath ++ b ++ "${workspaceRoot}" ++ c)
      "${vcpkgRoot}" = true ∧ P.vcpkgRoot ≠ "") by simp [h3])]
  rw [if_neg (show ¬((a ++ P.rootPath ++ b ++ "${workspaceRoot}" ++ c).data.contains '*'
    = true) by simpa using h4)]
  simp

theorem resolvePath_first_occurrence_vcpkgRoot (P : ResolveParams) (a b c : String)
    (h1 : resolveVariables (a ++ "${vcpkgRoot}" ++ b ++ "${vcpkgRoot}" ++ c)
        (extendedEnvironment P)
      = a ++ "${vcpkgRoot}" ++ b ++ "${vcpkgRoot}" ++ c)
    (hg0 : jsIncludes (a ++ "${vcpkgRoot}" ++ b ++ "${vcpkgRoot}" ++ c)
        "${workspaceFolder}" = false)
    (hg0' : jsIncludes (a ++ "${vcpkgRoot}" ++ b ++ "${vcpkgRoot}" ++ c)
        "${workspaceRoot}" = false)
    (hv : P.vcpkgRoot ≠ "")
    (ha : ∀ j, j < a.data.length → "${vcpkgRoot}".data.isPrefixOf
        ((a.data ++ ("${vcpkgRoot}".data ++ (b.data
          ++ ("${vcpkgRoot}".data ++ c.data)))).drop j) = false)
    (h4 : (a ++ P.vcpkgRoot ++ b ++ "${vcpkgRoot}" ++ c).data.contains '*' = false) :
    resolvePath P (a ++ "${vcpkgRoot}" ++ b ++ "${vcpkgRoot}" ++ c) false
      = a ++ P.vcpkgRoot ++ b ++ "${vcpkgRoot}" ++ c := by
  have h12 : ("${vcpkgRoot}" : String).data.length = 12 := rfl
  have h0l : ("" : String).data.length = 0 := rfl
  have h10 : ("${default}" : String).data.length = 10 := rfl
  have hne : ¬((a ++ "${vcpkgRoot}" ++ b ++ "${vcpkgRoot}" ++ c) = ""
      ∨ (a ++ "${vcpkgRoot}" ++ b ++ "${vcpkgRoot}" ++ c) = "${default}") := by
    rintro (he | he)
    · have hl := congrArg (fun s => s.data.length) he
      simp only [String.data_append, List.length_append, h12, h0l] at hl
      omega
    · have hl := congrArg (fun s => s.data.length) he
      simp only [String.data_append, List.length_append, h12, h10] at hl
      omega
  have hdata : (a ++ "${vcpkgRoot}" ++ b ++ "${vcpkgRoot}" ++ c).data
      = a.data ++ ("${vcpkgRoot}".data ++ (b.data
          ++ ("${vcpkgRoot}".data ++ c.data))) := by
    simp [String.data_append]
  have hg3 : jsIncludes (a ++ "${vcpkgRoot}" ++ b ++ "${vcpkgRoot}" ++ c)
      "${vcpkgRoot}" = true := by
    unfold jsIncludes
    rw [hdata]
    exact containsSubList_append_self _ _ _
  have hrepl : jsReplaceFirst (a ++ "${vcpkgRoot}" ++ b ++ "${vcpkgRoot}" ++ c)
      "${vcpkgRoot}" P.vcpkgRoot = a ++ P.vcpkgRoot ++ b ++ "${vcpkgRoot}" ++ c := by
    unfold jsReplaceFirst
    rw [String.ext_iff]
    show replaceFirstList "${vcpkgRoot}".data P.vcpkgRoot.data
        (a ++ "${vcpkgRoot}" ++ b ++ "${vcpkgRoot}" ++ c).data
      = (a ++ P.vcpkgRoot ++ b ++ "${vcpkgRoot}" ++ c).data
    rw [hdata]
    rw [replaceFirstList_first_occurrence "${vcpkgRoot}".data P.vcpkgRoot.data
      a.data (b.data ++ ("${vcpkgRoot}".data ++ c.data)) (by decide) ha]
    simp [String.data_append]
  unfold resolvePath
  rw [if_neg hne]
  dsimp only
  rw [h1]
  rw [if_neg (show ¬(jsIncludes (a ++ "${vcpkgRoot}" ++ b ++ "${vcpkgRoot}" ++ c)
    "${workspaceFolder}" = true) by simp [hg0])]
  rw [if_neg (show ¬(jsIncludes (a ++ "${vcpkgRoot}" ++ b ++ "${vcpkgRoot}" ++ c)
    "${workspaceRoot}" = true) by simp [hg0'])]
  rw [if_pos (show jsIncludes (a ++ "${vcpkgRoot}" ++ b ++ "${vcpkgRoot}" ++ c)
      "${vcpkgRoot}" = true ∧ P.vcpkgRoot ≠ "" from ⟨hg3, hv⟩)]
  rw [hrepl]
  rw [if_neg (show ¬((a ++ P.vcpkgRoot ++ b ++ "${vcpkgRoot}" ++ c).data.contains '*'
    = true) by simpa using h4)]
  simp

/-- Claim C10: for inputs containing two or more occurrences of the same
workspace token, `resolvePath` replaces only the first occurrence of each of
`${workspaceFolder}`, `${workspaceRoot}` and `${vcpkgRoot}` with its
substitution; any later occurrence of the same token remains literally
present in the returned path (single, not global, string replacement).  Here
the input's first token occurrence sits right after the prefix `a` and a
second occurrence sits between `b` and `c`; the hypotheses state that the
variable-substitution pass leaves the input unchanged and that the remaining
pipeline stages (the other token guards and the `*` stripping) do not fire. -/
theorem claim_C10_theorem (P : ResolveParams) (a b c : String)
    (wf1 : resolveVariables (a ++ "${workspaceFolder}" ++ b ++ "${workspaceFolder}" ++ c)
        (extendedEnvironment P)
      = a ++ "${workspaceFolder}" ++ b ++ "${workspaceFolder}" ++ c)
    (wfa : ∀ j, j < a.data.length → "${workspaceFolder}".data.isPrefixOf
        ((a.data ++ ("${workspaceFolder}".data ++ (b.data
          ++ ("${workspaceFolder}".data ++ c.data)))).drop j) = false)
    (wf2 : jsIncludes (a ++ P.rootPath ++ b ++ "${workspaceFolder}" ++ c)
        "${workspaceRoot}" = false)
    (wf3 : jsIncludes (a ++ P.rootPath ++ b ++ "${workspaceFolder}" ++ c)
        "${vcpkgRoot}" = false)
    (wf4 : (a ++ P.rootPath ++ b ++ "${workspaceFolder}" ++ c).data.contains '*' = false)
    (wr1 : resolveVariables (a ++ "${workspaceRoot}" ++ b ++ "${workspaceRoot}" ++ c)
        (extendedEnvironment P)
      = a ++ "${workspaceRoot}" ++ b ++ "${workspaceRoot}" ++ c)
    (wr0 : jsIncludes (a ++ "${workspaceRoot}" ++ b ++ "${workspaceRoot}" ++ c)
        "${workspaceFolder}" = false)
    (wra : ∀ j, j < a.data.length → "${workspaceRoot}".data.isPrefixOf
        ((a.data ++ ("${workspaceRoot}".data ++ (b.data
          ++ ("${workspaceRoot}".data ++ c.data)))).drop j) = false)
    (wr3 : jsIncludes (a ++ P.rootPath ++ b ++ "${workspaceRoot}" ++ c)
        "${vcpkgRoot}" = false)
    (wr4 : (a ++ P.rootPath ++ b ++ "${workspaceRoot}" ++ c).data.contains '*' = false)
    (vr1 : resolveVariables (a ++ "${vcpkgRoot}" ++ b ++ "${vcpkgRoot}" ++ c)
        (extendedEnvironment P)
      = a ++ "${vcpkgRoot}" ++ b ++ "${vcpkgRoot}" ++ c)
    (vr0 : jsIncludes (a ++ "${vcpkgRoot}" ++ b ++ "${vcpkgRoot}" ++ c)
        "${workspaceFolder}" = false)
    (vr0' : jsIncludes (a ++ "${vcpkgRoot}" ++ b ++ "${vcpkgRoot}" ++ c)
        "${workspaceRoot}" = false)
    (vrv : P.vcpkgRoot ≠ "")
    (vra : ∀ j, j < a.data.length → "${vcpkgRoot}".data.isPrefixOf
        ((a.data ++ ("${vcpkgRoot}".data ++ (b.data
          ++ ("${vcpkgRoot}".data ++ c.data)))).drop j) = false)
    (vr4 : (a ++ P.vcpkgRoot ++ b ++ "${vcpkgRoot}" ++ c).data.contains '*' = false) :
    resolvePath P (a ++ "${workspaceFolder}" ++ b ++ "${workspaceFolder}" ++ c) false
      = a ++ P.rootPath ++ b ++ "${workspaceFolder}" ++ c
    ∧ resolvePath P (a ++ "${workspaceRoot}" ++ b ++ "${workspaceRoot}" ++ c) false
      = a ++ P.rootPath ++ b ++ "${workspaceRoot}" ++ c
    ∧ resolvePath P (a ++ "${vcpkgRoot}" ++ b ++ "${vcpkgRoot}" ++ c) false
      = a ++ P.vcpkgRoot ++ b ++ "${vcpkgRoot}" ++ c :=
  ⟨resolvePath_first_occurrence_workspaceFolder P a b c wf1 wfa wf2 wf3 wf4,
   resolvePath_first_occurrence_workspaceRoot P a b c wr1 wr0 wra wr3 wr4,
   resolvePath_first_occurrence_vcpkgRoot P a b c vr1 vr0 vr0' vrv vra vr4⟩

theorem claim_C10_witness :
    resolvePath { rootPath := "/r", rootBasename := "wsb", vcpkgRoot := "/v" }
        ("A" ++ "${workspaceFolder}" ++ "B" ++ "${workspaceFolder}" ++ "C") false
      = "A" ++ "/r" ++ "B" ++ "${workspaceFolder}" ++ "C"
    ∧ resolvePath { rootPath := "/r", rootBasename := "wsb", vcpkgRoot := "/v" }
        ("A" ++ "${workspaceRoot}" ++ "B" ++ "${workspaceRoot}" ++ "C") false
      = "A" ++ "/r" ++ "B" ++ "${workspaceRoot}" ++ "C"
    ∧ resolvePath { rootPath := "/r", rootBasename := "wsb", vcpkgRoot := "/v" }
        ("A" ++ "${vcpkgRoot}" ++ "B" ++ "${vcpkgRoot}" ++ "C") false
      = "A" ++ "/v" ++ "B" ++ "${vcpkgRoot}" ++ "C" :=
  claim_C10_theorem { rootPath := "/r", rootBasename := "wsb", vcpkgRoot := "/v" }
    "A" "B" "C" (by decide) (by decide) (by decide) (by decide) (by decide)
    (by decide) (by decide) (by decide) (by decide) (by decide) (by decide)
    (by decide) (by decide) (by decide) (by decide) (by decide)

theorem claim_C1_counterexample :
    ((handleSquigglesCore
        { curText := ", \"includePath\": [\"b;b\",\"b\"]", curTextStartOffset := 0,
          isWindows := false, pathSep := '/',
          resolveP := { rootPath := "/r", rootBasename := "r" },
          fsExists := fun _ => false, fileExists := fun _ => false,
          dirExists := fun _ => false }
        { name := "A", includePath := some ["b;b", "b"] } []).diagnostics.filter
      (fun d => d.message = "Cannot find \"b\".")).length
    ≠ boundedOccurrenceCount "b".data ", \"includePath\": [\"b;b\",\"b\"]".data := by
  decide

theorem escapeQuotesList_id (l : List Char) (h : '"' ∉ l) :
    escapeQuotesList l = l := by
  induction l with
  | nil => rfl
  | cons c cs ih =>
    simp only [List.mem_cons, not_or] at h
    have hc : ¬(c = '"') := fun he => h.1 he.symm
    simp [escapeQuotesList, hc, ih h.2]

theorem closeQuoteLen_spec (cs : List Char) (t : Nat) (h : closeQuoteLen cs = some t) :
    cs.get? t = some '"' ∧ ∀ i, i < t → cs.get? i ≠ some '"' := by
  induction cs generalizing t with
  | nil => simp [closeQuoteLen] at h
  | cons c cs ih =>
    by_cases hc : c = '"'
    · subst hc
      simp [closeQuoteLen] at h
      subst h
      exact ⟨rfl, by intro i hi; omega⟩
    · by_cases hd : isDotChar c = true
      · simp [closeQuoteLen, hc, hd] at h
        obtain ⟨n, hn, hnt⟩ := h
        obtain ⟨h1, h2⟩ := ih n hn
        subst hnt
        refine ⟨by simpa using h1, ?_⟩
        intro i hi
        cases i with
        | zero => simpa using hc
        | succ j => simpa using h2 j (by omega)
      · simp [closeQuoteLen, hc, hd] at h

theorem tryBody_spec (p : List Char) (cs : List Char) (prev : Char) (n : Nat)
    (h : tryBody p prev cs = some n) :
    ∃ k t, n = k + p.length + t + 1
      ∧ (∀ i, i < k → cs.get? i ≠ some '"')
      ∧ (k = 0 ∨ ∃ cb, cs.get? (k - 1) = some cb ∧ isBoundChar cb = true)
      ∧ (k = 0 → isBoundChar prev = true)
      ∧ p.isPrefixOf (cs.drop k) = true
      ∧ boundHead (cs.drop (k + p.length)) = true
      ∧ cs.get? (k + p.length + t) = some '"'
      ∧ (∀ i, k + p.length ≤ i → i < k + p.length + t → cs.get? i ≠ some '"') := by
  induction cs generalizing prev n with
  | nil =>
    rw [tryBody] at h
    simp [boundHead] at h
  | cons c rest ih =>
    rw [tryBody] at h
    have step : (if c = '"' then none
          else (tryBody p c rest).map (fun m => m + 1)) = some n →
        ∃ k t, n = k + p.length + t + 1
          ∧ (∀ i, i < k → (c :: rest).get? i ≠ some '"')
          ∧ (k = 0 ∨ ∃ cb, (c :: rest).get? (k - 1) = some cb ∧ isBoundChar cb = true)
          ∧ (k = 0 → isBoundChar prev = true)
          ∧ p.isPrefixOf ((c :: rest).drop k) = true
          ∧ boundHead ((c :: rest).drop (k + p.length)) = true
          ∧ (c :: rest).get? (k + p.length + t) = some '"'
          ∧ (∀ i, k + p.length ≤ i → i < k + p.length + t
              → (c :: rest).get? i ≠ some '"') := by
      intro hf
      by_cases hc : c = '"'
      · rw [if_pos hc] at hf
        exact absurd hf (by simp)
      · rw [if_neg hc] at hf
        obtain ⟨m, hm, hmn⟩ := Option.map_eq_some'.mp hf
        obtain ⟨k, t, hkt, hnq, hbound, hk0, hpre, hbh, hquote, hbetween⟩ := ih c m hm
        refine ⟨k + 1, t, by omega, ?_, ?_, ?_, ?_, ?_, ?_, ?_⟩
        · intro i hi
          cases i with
          | zero =>
            simpa using hc
          | succ j =>
            simpa using hnq j (by omega)
        · right
          cases k with
          | zero => exact ⟨c, rfl, hk0 rfl⟩
          | succ k2 =>
            rcases hbound with hb | ⟨cb, hcb, hcbb⟩
            · exact absurd hb (by omega)
            · exact ⟨cb, by simpa using hcb, hcbb⟩
        · intro h0
          exact absurd h0 (by omega)
        · simpa using hpre
        · have hidx : k + 1 + p.length = (k + p.length) + 1 := by omega
          rw [hidx, List.drop_succ_cons]
          exact hbh
        · have hidx : k + 1 + p.length + t = (k + p.length + t) + 1 := by omega
          rw [hidx, List.get?_cons_succ]
          exact hquote
        · intro i hge hlt
          cases i with
          | zero => exact absurd hge (by omega)
          | succ j =>
            rw [List.get?_cons_succ]
            exact hbetween j (by omega) (by omega)
    by_cases hcond : (isBoundChar prev && p.isPrefixOf (c :: rest)
        && boundHead ((c :: rest).drop p.length)) = true
    · rw [if_pos hcond] at h
      cases hclose : closeQuoteLen ((c :: rest).drop p.length) with
      | some t =>
        rw [hclose] at h
        simp only [Option.some.injEq] at h
        have hcond2 := hcond
        simp only [Bool.and_eq_true] at hcond2
        obtain ⟨⟨hb1, hb2⟩, hb3⟩ := hcond2
        obtain ⟨hq, hbet⟩ := closeQuoteLen_spec _ _ hclose
        refine ⟨0, t, by omega, ?_, Or.inl rfl, fun _ => hb1, by simpa using hb2,
          by simpa using hb3, ?_, ?_⟩
        · intro i hi
          exact absurd hi (by omega)
        · rw [List.get?_drop] at hq
          simpa using hq
        · intro i hge hlt
          have h2 := hbet (i - p.length) (by omega)
          rw [List.get?_drop] at h2
          have hidx : p.length + (i - p.length) = i := by omega
          rw [hidx] at h2
          simpa using h2
      | none =>
        rw [hclose] at h
        exact step h
    · rw [if_neg hcond] at h
      exact step h

theorem prefix_get? (p s : List Char) (q : Nat) (hpre : p.isPrefixOf s = true)
    (hq : q < p.length) : s.get? q = p.get? q := by
  obtain ⟨u, hu⟩ := List.isPrefixOf_iff_prefix.mp hpre
  subst hu
  exact List.get?_append (by omega)

theorem tryMatchLen_spec (p text : List Char) (n : Nat)
    (h : tryMatchLen p text = some n) :
    text.get? 0 = some '"' ∧ 2 ≤ n ∧ n ≤ text.length
    ∧ text.get? (n - 1) = some '"'
    ∧ (∃ j, 1 ≤ j ∧ j + p.length + 1 ≤ n
        ∧ (∃ cb, text.get? (j - 1) = some cb ∧ isBoundChar cb = true)
        ∧ p.isPrefixOf (text.drop j) = true
        ∧ boundHead (text.drop (j + p.length)) = true)
    ∧ ('"' ∉ p → ∀ i, 0 < i → i < n - 1 → text.get? i ≠ some '"') := by
  cases text with
  | nil => simp [tryMatchLen] at h
  | cons c rest =>
    rw [tryMatchLen] at h
    by_cases hc : c = '"'
    · rw [if_pos hc] at h
      subst hc
      obtain ⟨m, hm, hmn⟩ := Option.map_eq_some'.mp h
      subst hmn
      obtain ⟨k, t, hkt, hnq, hbound, hk0, hpre, hbh, hquote, hbetween⟩ :=
        tryBody_spec p rest '"' m hm
      have hmlen : m ≤ rest.length := by
        have hlt := (List.get?_eq_some.mp hquote).1
        omega
      refine ⟨rfl, by omega, by simp only [List.length_cons]; omega,
        ?_, ⟨k + 1, by omega, by omega, ?_, by simpa using hpre, ?_⟩, ?_⟩
      · have hidx : m + 1 - 1 = (k + p.length + t) + 1 := by omega
        rw [hidx, List.get?_cons_succ]
        exact hquote
      · cases k with
        | zero =>
          exact ⟨'"', rfl, by simp [isBoundChar]⟩
        | succ k2 =>
          rcases hbound with hb | ⟨cb, hcb, hcbb⟩
          · exact absurd hb (by omega)
          · exact ⟨cb, by simpa using hcb, hcbb⟩
      · have hidx : k + 1 + p.length = (k + p.length) + 1 := by omega
        rw [hidx, List.drop_succ_cons]
        exact hbh
      · intro hpq i h0 hlt
        cases i with
        | zero => exact absurd h0 (by omega)
        | succ i2 =>
          rw [List.get?_cons_succ]
          have hi2 : i2 < k + p.length + t := by omega
          by_cases hzone1 : i2 < k
          · exact hnq i2 hzone1
          · by_cases hzone2 : i2 < k + p.length
            · have hg := prefix_get? p (rest.drop k) (i2 - k) hpre (by omega)
              rw [List.get?_drop] at hg
              have hidx : k + (i2 - k) = i2 := by omega
              rw [hidx] at hg
              rw [hg]
              intro hcontra
              exact hpq (List.get?_mem hcontra)
            · exact hbetween i2 (by omega) hi2
    · rw [if_neg hc] at h
      exact absurd h (by simp)

theorem scanMatchesAux_mem (p : List Char) (fuel : Nat) :
    ∀ (text : List Char) (s e : Nat), (s, e) ∈ scanMatchesAux p fuel text →
      tryMatchLen p (text.drop s) = some (e - s) ∧ s < e ∧ e ≤ text.length := by
  induction fuel with
  | zero =>
    intro text s e h
    simp [scanMatchesAux] at h
  | succ fuel ih =>
    intro text s e h
    cases text with
    | nil => simp [scanMatchesAux] at h
    | cons c rest =>
      cases hm : tryMatchLen p (c :: rest) with
      | some len =>
        simp only [scanMatchesAux] at h
        rw [hm] at h
        obtain ⟨_, hlen2, hlenle, _, _, _⟩ := tryMatchLen_spec p (c :: rest) len hm
        rcases List.mem_cons.mp h with heq | hmem
        · have hs : s = 0 ∧ e = len := by
            simpa [Prod.ext_iff] using heq
          obtain ⟨hs0, hel⟩ := hs
          subst hs0
          subst hel
          exact ⟨by simpa using hm, by omega, hlenle⟩
        · obtain ⟨⟨s2, e2⟩, hmem2, heq2⟩ := List.mem_map.mp hmem
          have hs : s2 + len = s ∧ e2 + len = e := by
            simpa [Prod.ext_iff] using heq2
          obtain ⟨hs0, hel⟩ := hs
          subst hs0
          subst hel
          obtain ⟨ht, hlt, hle⟩ := ih ((c :: rest).drop len) s2 e2 hmem2
          rw [List.drop_drop] at ht
          have hlen3 : ((c :: rest).drop len).length = (c :: rest).length - len := by
            simp
          rw [hlen3] at hle
          refine ⟨?_, by omega, by omega⟩
          have hidx : e2 + len - (s2 + len) = e2 - s2 := by omega
          have hidx2 : s2 + len = len + s2 := by omega
          rw [hidx, hidx2]
          exact ht
      | none =>
        simp only [scanMatchesAux] at h
        rw [hm] at h
        obtain ⟨⟨s2, e2⟩, hmem2, heq2⟩ := List.mem_map.mp h
        have hs : s2 + 1 = s ∧ e2 + 1 = e := by
          simpa [Prod.ext_iff] using heq2
        obtain ⟨hs0, hel⟩ := hs
        subst hs0
        subst hel
        obtain ⟨ht, hlt, hle⟩ := ih rest s2 e2 hmem2
        refine ⟨?_, by omega, by simp only [List.length_cons]; omega⟩
        rw [List.drop_succ_cons]
        have hidx : e2 + 1 - (s2 + 1) = e2 - s2 := by omega
        rw [hidx]
        exact ht

theorem scanMatchesAux_chain (p : List Char) (fuel : Nat) :
    ∀ text : List Char,
      List.Chain' (fun x y : Nat × Nat => x.2 ≤ y.1) (scanMatchesAux p fuel text) := by
  induction fuel with
  | zero =>
    intro text
    simp [scanMatchesAux]
  | succ fuel ih =>
    intro text
    cases text with
    | nil => simp [scanMatchesAux]
    | cons c rest =>
      cases hm : tryMatchLen p (c :: rest) with
      | some len =>
        simp only [scanMatchesAux]
        rw [hm]
        refine List.chain'_cons'.mpr ⟨?_, ?_⟩
        · intro b hb
          rcases hl : scanMatchesAux p fuel ((c :: rest).drop len) with _ | ⟨⟨s2, e2⟩, tl⟩
          · rw [hl] at hb
            simp at hb
          · rw [hl] at hb
            simp only [List.map_cons, List.head?_cons, Option.mem_def,
              Option.some.injEq] at hb
            subst hb
            simp
        · rw [List.chain'_map]
          exact (ih _).imp (fun hab => by omega)
      | none =>
        simp only [scanMatchesAux]
        rw [hm]
        rw [List.chain'_map]
        exact (ih rest).imp (fun hab => by omega)

theorem foldl_emit_fst {α β γ : Type} (l : List α) (f : α → β) (g : List β × γ → α → γ)
    (acc : List β) (z : γ) :
    (l.foldl (fun ac se => (ac.1 ++ [f se], g ac se)) (acc, z)).1 = acc ++ l.map f := by
  induction l generalizing acc z with
  | nil => simp
  | cons x xs ih => simp [ih]

theorem squigglesForPath_nonexistent (ctx : SquiggleContext) (cfg : Configuration)
    (ranges : KeyRanges) (curPath : String)
    (hne : curPath ≠ "${default}")
    (hcp : cfg.compilerPath ≠ some curPath)
    (hres : resolvePath ctx.resolveP curPath ctx.isWindows ≠ "")
    (hex : ctx.fsExists (resolvePath ctx.resolveP curPath ctx.isWindows) = false)
    (hrel : ctx.fsExists (ctx.resolveP.rootPath ++ String.mk [ctx.pathSep]
      ++ resolvePath ctx.resolveP curPath ctx.isWindows) = false) :
    (squigglesForPath ctx cfg ranges curPath).1
      = (scanMatches (escapeQuotesList curPath.data) ctx.curText.data).map (fun se =>
          mkDiag ((ctx.curTextStartOffset : Int) + (se.1 : Int))
            ((ctx.curTextStartOffset : Int) + (se.2 : Int))
            ("Cannot find \"" ++ (if ctx.pathSep = '/' then
                String.mk ((resolvePath ctx.resolveP curPath ctx.isWindows).data.map
                  (fun ch => if ch = '\\' then '/' else ch))
              else
                String.mk ((resolvePath ctx.resolveP curPath ctx.isWindows).data.map
                  (fun ch => if ch = '/' then '\\' else ch))) ++ "\".")) := by
  unfold squigglesForPath
  rw [if_neg hne, if_neg hres]
  rw [if_neg (show ¬((decide (cfg.compilerPath = some curPath)) = true) by simp [hcp])]
  dsimp only
  rw [if_neg (show ¬(ctx.fsExists (resolvePath ctx.resolveP curPath ctx.isWindows) = true)
    by simp [hex])]
  rw [if_neg (show ¬((decide (cfg.compilerPath = some curPath) && ctx.isWindows
      && !(ctx.isWindows && (resolvePath ctx.resolveP curPath ctx.isWindows).startsWith "/")
      && ctx.fsExists (resolvePath ctx.resolveP curPath ctx.isWindows ++ ".exe")) = true)
    by simp [hcp])]
  rw [if_neg (show ¬(ctx.fsExists (ctx.resolveP.rootPath ++ String.mk [ctx.pathSep]
      ++ resolvePath ctx.resolveP curPath ctx.isWindows) = true) by simp [hrel])]
  rw [if_neg (show ¬((decide (cfg.compilerPath = some curPath) && ctx.isWindows
      && !(ctx.isWindows && (resolvePath ctx.resolveP curPath ctx.isWindows).startsWith "/")
      && ctx.fsExists (resolvePath ctx.resolveP curPath ctx.isWindows ++ ".exe")) = true)
    by simp [hcp])]
  dsimp only
  simp only [Bool.not_false, eq_self_iff_true, if_true]
  exact (foldl_emit_fst _ _ _ _ _).trans (by simp)

/-- Claim C1 (amended): for a nonexistent `includePath` entry (without
embedded quotes and distinct from the compiler path), the squiggle pass emits
exactly one "cannot find" diagnostic per match of a non-overlapping
left-to-right scan, not per bounded occurrence; the match spans are ordered
and disjoint, and each span starts and ends at a quote character, contains no
other quote, and contains an occurrence of the raw entry immediately bounded
by a quote or semicolon on both sides — so a span never covers an adjacent
unrelated path sharing a substring in a different quoted string, while
several bounded occurrences inside one quoted string share one diagnostic. -/
theorem claim_C1_theorem (ctx : SquiggleContext) (cfg : Configuration)
    (ranges : KeyRanges) (curPath : String)
    (hq : '"' ∉ curPath.data)
    (hne : curPath ≠ "${default}")
    (hcp : cfg.compilerPath ≠ some curPath)
    (hres : resolvePath ctx.resolveP curPath ctx.isWindows ≠ "")
    (hex : ctx.fsExists (resolvePath ctx.resolveP curPath ctx.isWindows) = false)
    (hrel : ctx.fsExists (ctx.resolveP.rootPath ++ String.mk [ctx.pathSep]
      ++ resolvePath ctx.resolveP curPath ctx.isWindows) = false) :
    (∃ msg, (squigglesForPath ctx cfg ranges curPath).1
        = (scanMatches curPath.data ctx.curText.data).map (fun se =>
            mkDiag ((ctx.curTextStartOffset : Int) + (se.1 : Int))
              ((ctx.curTextStartOffset : Int) + (se.2 : Int)) msg))
    ∧ List.Chain' (fun x y : Nat × Nat => x.2 ≤ y.1)
        (scanMatches curPath.data ctx.curText.data)
    ∧ ∀ se ∈ scanMatches curPath.data ctx.curText.data,
        se.1 < se.2 ∧ se.2 ≤ ctx.curText.data.length
        ∧ ctx.curText.data.get? se.1 = some '"'
        ∧ ctx.curText.data.get? (se.2 - 1) = some '"'
        ∧ (∀ i, se.1 < i → i < se.2 - 1 → ctx.curText.data.get? i ≠ some '"')
        ∧ ∃ j, se.1 < j ∧ j + curPath.data.length + 1 ≤ se.2
            ∧ (∃ cb, ctx.curText.data.get? (j - 1) = some cb ∧ isBoundChar cb = true)
            ∧ curPath.data.isPrefixOf (ctx.curText.data.drop j) = true
            ∧ boundHead (ctx.curText.data.drop (j + curPath.data.length)) = true := by
  have hesc : escapeQuotesList curPath.data = curPath.data := escapeQuotesList_id _ hq
  refine ⟨?_, ?_, ?_⟩
  · have h := squigglesForPath_nonexistent ctx cfg ranges curPath hne hcp hres hex hrel
    rw [hesc] at h
    exact ⟨_, h⟩
  · exact scanMatchesAux_chain curPath.data ctx.curText.data.length ctx.curText.data
  · intro se hse
    obtain ⟨htm, hlt, hle⟩ :=
      scanMatchesAux_mem curPath.data ctx.curText.data.length ctx.curText.data se.1 se.2
        (by simpa using hse)
    obtain ⟨hq0, hn2, hnle, hqend, ⟨j, hj1, hjle, ⟨cb, hcb, hcbb⟩, hpre, hbh⟩, hint⟩ :=
      tryMatchLen_spec curPath.data (ctx.curText.data.drop se.1) (se.2 - se.1) htm
    rw [List.get?_drop] at hq0
    rw [List.get?_drop] at hqend
    rw [List.get?_drop] at hcb
    refine ⟨hlt, ?_, ?_, ?_, ?_, ⟨se.1 + j, by omega, by omega, ⟨cb, ?_, hcbb⟩, ?_, ?_⟩⟩
    · have hdl : (ctx.curText.data.drop se.1).length = ctx.curText.data.length - se.1 := by
        simp
      omega
    · simpa using hq0
    · have hidx : se.1 + (se.2 - se.1 - 1) = se.2 - 1 := by omega
      rw [hidx] at hqend
      exact hqend
    · intro i hgt hlt2
      have h2 := hint hq (i - se.1) (by omega) (by omega)
      rw [List.get?_drop] at h2
      have hidx : se.1 + (i - se.1) = i := by omega
      rw [hidx] at h2
      exact h2
    · have hidx : se.1 + j - 1 = se.1 + (j - 1) := by omega
      rw [hidx]
      exact hcb
    · rw [List.drop_drop] at hpre
      exact hpre
    · rw [List.drop_drop] at hbh
      have hidx : se.1 + (j + curPath.data.length) = se.1 + j + curPath.data.length := by
        omega
      rw [hidx] at hbh
      exact hbh

theorem claim_C1_witness :
    (∃ msg, (squigglesForPath
        { curText := ", \"includePath\": [\"b;b\",\"b\"]", curTextStartOffset := 0,
          isWindows := false, pathSep := '/',
          resolveP := { rootPath := "/r", rootBasename := "r" },
          fsExists := fun _ => false, fileExists := fun _ => false,
          dirExists := fun _ => false }
        { name := "A", includePath := some ["b;b", "b"] }
        ⟨-1, -1, -1, -1, -1, -1⟩ "b").1
      = (scanMatches "b".data ", \"includePath\": [\"b;b\",\"b\"]".data).map (fun se =>
          mkDiag (((0 : Nat) : Int) + (se.1 : Int)) (((0 : Nat) : Int) + (se.2 : Int)) msg))
    ∧ List.Chain' (fun x y : Nat × Nat => x.2 ≤ y.1)
        (scanMatches "b".data ", \"includePath\": [\"b;b\",\"b\"]".data)
    ∧ ∀ se ∈ scanMatches "b".data ", \"includePath\": [\"b;b\",\"b\"]".data,
        se.1 < se.2 ∧ se.2 ≤ ", \"includePath\": [\"b;b\",\"b\"]".data.length
        ∧ ", \"includePath\": [\"b;b\",\"b\"]".data.get? se.1 = some '"'
        ∧ ", \"includePath\": [\"b;b\",\"b\"]".data.get? (se.2 - 1) = some '"'
        ∧ (∀ i, se.1 < i → i < se.2 - 1 →
            ", \"includePath\": [\"b;b\",\"b\"]".data.get? i ≠ some '"')
        ∧ ∃ j, se.1 < j ∧ j + "b".data.length + 1 ≤ se.2
            ∧ (∃ cb, ", \"includePath\": [\"b;b\",\"b\"]".data.get? (j - 1) = some cb
                ∧ isBoundChar cb = true)
            ∧ "b".data.isPrefixOf (", \"includePath\": [\"b;b\",\"b\"]".data.drop j) = true
            ∧ boundHead (", \"includePath\": [\"b;b\",\"b\"]".data.drop
                (j + "b".data.length)) = true := by
  exact claim_C1_theorem
    { curText := ", \"includePath\": [\"b;b\",\"b\"]", curTextStartOffset := 0,
      isWindows := false, pathSep := '/',
      resolveP := { rootPath := "/r", rootBasename := "r" },
      fsExists := fun _ => false, fileExists := fun _ => false,
      dirExists := fun _ => false }
    { name := "A", includePath := some ["b;b", "b"] }
    ⟨-1, -1, -1, -1, -1, -1⟩ "b"
    (by decide) (by decide) (by decide) (by decide) rfl rfl
